import Mathlib

/-!
Verification of the behavioral risk-analytics core of the Risk-Reward
Simulator (a virtual-currency betting simulation written in TypeScript).

The development shallowly embeds the core functions of the source:

* the Wager Engine and Ledger (`GameContext.tsx`: `calculateRisk`,
  `placeBet`, `resetGame`, the event and persona catalogs),
* the persona classifier (`getCurrentPersona`),
* the loss-chasing rule of the Pattern Detector (`PatternRecognition`),
* the Projection Engine (`PredictiveAnalytics`: `calculateMetrics`,
  `generateProjections`).

Conventions of the embedding:

* JavaScript numbers are modelled as `ℚ` (all arithmetic in the embedded
  code paths is exact on rationals); `Math.round x` is `⌊x + 1/2⌋` and
  `Math.floor` is `⌊·⌋`.
* `Math.random()` draws are an explicit stream `rand : ℕ → ℚ` (or a single
  explicit draw argument), and `Date.now()` is an explicit time argument,
  so stateful code becomes a pure step function on an explicit state type.
* `Math.sqrt` is an abstract parameter `sqrtFn : ℚ → ℚ`; the theorems that
  need it only assume it is non-negative on non-negative inputs.
* JS identifiers whose name ends in `...Ratio` are rendered with the
  suffix `Frac` (same meaning, ASCII-safe naming in this development);
  presentation-only fields (emoji icons, colors) are omitted.
-/

/-- JavaScript `Math.round` on an exact rational: round half toward positive
infinity, i.e. `⌊x + 1/2⌋`. -/
def jsRound (q : ℚ) : ℤ := ⌊q + 1/2⌋

/-- JavaScript `Math.floor` on an exact rational. -/
def jsFloor (q : ℚ) : ℤ := ⌊q⌋

/-- Betting event catalog entry (`BetEvent` in `GameContext.tsx`).
The `icon` field (an emoji, presentation only) is omitted. -/
structure BetEvent where
  id : String
  name : String
  multiplier : ℚ
  winChance : ℚ
  minBet : ℚ
  maxBet : Option ℚ
  riskLevel : String
  description : String
  deriving DecidableEq

/-- Inclusive risk range of a persona (`riskRange` in `GameContext.tsx`). -/
structure RiskRange where
  min : ℤ
  max : ℤ
  deriving DecidableEq

/-- Behavioral persona (`Persona` in `GameContext.tsx`).
The `icon` and `color` fields (presentation only) are omitted. -/
structure Persona where
  id : String
  name : String
  description : String
  maxBetPercentage : ℚ
  riskRange : RiskRange
  traits : List String
  deriving DecidableEq

/-- Outcome of a settled bet (`'win' | 'loss'`). -/
inductive Outcome where
  | win
  | loss
  deriving DecidableEq

/-- A settled bet record (`BetHistory` in `GameContext.tsx`).
`timestamp` is the `Date.now()` millisecond value as a rational. -/
structure BetRecord where
  id : String
  eventId : String
  eventName : String
  betAmount : ℚ
  outcome : Outcome
  winAmount : ℚ
  balanceAfter : ℚ
  riskPercentage : ℤ
  timestamp : ℚ
  deriving DecidableEq

/-- Game state (`GameState = 'playing' | 'won' | 'lost'`). -/
inductive GameState where
  | playing
  | won
  | lost
  deriving DecidableEq

/-- The mutable state owned by `GameProvider`: balance, current risk,
bet history (stored newest first, exactly as the source keeps it),
and game state.  The `isProcessingBet` animation flag is omitted. -/
structure GState where
  balance : ℚ
  currentRisk : ℤ
  betHistory : List BetRecord
  gameState : GameState
  deriving DecidableEq

/-- `betEvents[0]`: the Coin Flip event. -/
def coinFlip : BetEvent :=
  { id := "coin-flip", name := "Coin Flip", multiplier := 2,
    winChance := 5/10, minBet := 10, maxBet := none, riskLevel := "Low",
    description := "Heads or tails? Classic 50/50 chance to double your money." }

/-- `betEvents[1]`: the Dice Roll event. -/
def diceRoll : BetEvent :=
  { id := "dice-roll", name := "Dice Roll", multiplier := 6,
    winChance := 166/1000, minBet := 50, maxBet := some 2000, riskLevel := "Medium",
    description := "Roll a six to win big! Can you beat the odds?" }

/-- `betEvents[2]`: the Bullseye event. -/
def bullseye : BetEvent :=
  { id := "bullseye", name := "Bullseye", multiplier := 3,
    winChance := 33/100, minBet := 30, maxBet := some 1500, riskLevel := "Low",
    description := "Hit the target and triple your bet. Steady hands win." }

/-- `betEvents[3]`: the Roulette event. -/
def roulette : BetEvent :=
  { id := "roulette", name := "Roulette", multiplier := 35,
    winChance := 27/1000, minBet := 100, maxBet := some 1000, riskLevel := "High",
    description := "Hit your number and win 35x your bet! High risk, high reward." }

/-- `betEvents[4]`: the Sports Match event. -/
def sportsMatch : BetEvent :=
  { id := "sports-match", name := "Sports Match", multiplier := 35/10,
    winChance := 3/10, minBet := 25, maxBet := some 5000, riskLevel := "Medium",
    description := "Bet on the underdog team and get 3.5x your money if they win." }

/-- `betEvents[5]`: the Mega Jackpot event. -/
def megaJackpot : BetEvent :=
  { id := "mega-jackpot", name := "Mega Jackpot", multiplier := 20,
    winChance := 5/100, minBet := 200, maxBet := some 2000, riskLevel := "High",
    description := "Go for the mega jackpot! Low chance but massive rewards await." }

/-- The six-event catalog `betEvents` from `GameContext.tsx`. -/
def betEvents : List BetEvent :=
  [coinFlip, diceRoll, bullseye, roulette, sportsMatch, megaJackpot]

/-- The id of the Coin Flip event, used in the concrete sessions below. -/
def coinFlipId : String := "coin-flip"

/-- `personas[0]` of `GameContext.tsx`: the most conservative persona. -/
def babyBetsy : Persona :=
  { id := "baby-betsy", name := "Baby Betsy",
    description := "Safe bets, max 10% bankroll", maxBetPercentage := 1/10,
    riskRange := { min := 0, max := 30 },
    traits := ["Cautious", "Smart", "Patient"] }

/-- `personas[1]` of `GameContext.tsx`. -/
def midlifeCrisisMike : Persona :=
  { id := "midlife-crisis-mike", name := "Midlife Crisis Mike",
    description := "Moderate risk, max 30% bankroll", maxBetPercentage := 3/10,
    riskRange := { min := 31, max := 70 },
    traits := ["Impulsive", "Calculated", "Strategic"] }

/-- `personas[2]` of `GameContext.tsx`. -/
def yoloYolanda : Persona :=
  { id := "yolo-yolanda", name := "YOLO Yolanda",
    description := "High risk, often all-in", maxBetPercentage := 1,
    riskRange := { min := 71, max := 100 },
    traits := ["Reckless", "Daring", "All or Nothing"] }

/-- The persona catalog `personas` from `GameContext.tsx`. -/
def personas : List Persona := [babyBetsy, midlifeCrisisMike, yoloYolanda]

/-- `betEvents.find((e) => e.id === eventId)`. -/
def findEvent (eventId : String) : Option BetEvent :=
  betEvents.find? (fun e => e.id == eventId)

/-- `getCurrentPersona` from `GameContext.tsx`: the persona whose inclusive
risk range contains the given risk value, defaulting to `personas[0]`
(Baby Betsy) when none matches. -/
def getCurrentPersona (risk : ℤ) : Persona :=
  match personas.find? (fun p => decide (p.riskRange.min ≤ risk) &&
      decide (risk ≤ p.riskRange.max)) with
  | some p => p
  | none => babyBetsy

/-- `calculateRisk` from `GameContext.tsx`, parameterized by the event
catalog it closes over and the current balance.  Returns `0` when the
event is unknown or the balance is non-positive; otherwise the weighted
blend `betSizeFactor*50 + eventProbabilityFactor*30 + lossImpactFactor*20`
(both stake-fraction factors capped at `1`), rounded, capped at `100`. -/
def calculateRisk (events : List BetEvent) (balance : ℚ)
    (eventId : String) (betAmount : ℚ) : ℤ :=
  match events.find? (fun e => e.id == eventId) with
  | none => 0
  | some event =>
    if balance ≤ 0 then 0
    else
      let betSizeFactor := min (betAmount / balance) 1
      let eventProbabilityFactor := 1 - event.winChance
      let potentialLoss := betAmount
      let lossImpactFactor := min (potentialLoss / balance) 1
      let riskPercentage := betSizeFactor * 50 + eventProbabilityFactor * 30 +
        lossImpactFactor * 20
      min (jsRound riskPercentage) 100

/-- `calculateRisk` as the game uses it (closing over `betEvents`). -/
def calculateRiskGame (balance : ℚ) (eventId : String) (betAmount : ℚ) : ℤ :=
  calculateRisk betEvents balance eventId betAmount

/-- Result of a `placeBet` call.  The source signals rejection by returning
`false` after a `console.log`; the three rejection constructors mirror the
three early-return branches, and `settled` carries the appended history
entry together with the win flag the call returns. -/
inductive BetResult where
  | invalidEventOrState
  | invalidAmount
  | insufficientBalance
  | settled (entry : BetRecord) (isWin : Bool)
  deriving DecidableEq

/-- The bet-limit guard of `placeBet`:
`amount < event.minBet || (event.maxBet !== null && amount > event.maxBet)`. -/
def violatesLimits (event : BetEvent) (amount : ℚ) : Bool :=
  decide (amount < event.minBet) ||
    (match event.maxBet with
     | some m => decide (amount > m)
     | none => false)

/-- The `historyEntry` record built by the accepted branch of `placeBet`:
risk computed before settlement, `id` derived from the timestamp, the event
name denormalized, `winAmount` zero on a loss, `balanceAfter` the
post-settlement balance. -/
def mkEntry (s : GState) (event : BetEvent) (eventId : String)
    (amount rand now : ℚ) : BetRecord :=
  let riskPercentage := calculateRiskGame s.balance eventId amount
  let isWin : Bool := decide (rand < event.winChance)
  let winAmount := if isWin then amount * (event.multiplier - 1) else -amount
  { id := "bet-" ++ toString now,
    eventId := eventId,
    eventName := event.name,
    betAmount := amount,
    outcome := if isWin then Outcome.win else Outcome.loss,
    winAmount := if isWin then amount * (event.multiplier - 1) else 0,
    balanceAfter := s.balance + winAmount,
    riskPercentage := riskPercentage,
    timestamp := now }

/-- The accepted branch of `placeBet`: compute the risk, resolve the draw,
settle the balance, build the history entry, prepend it, derive the new
game state, and recompute `currentRisk` from half the amount against the
pre-settlement balance (the closure captures the old `balance`). -/
def settleBet (s : GState) (event : BetEvent) (eventId : String)
    (amount rand now : ℚ) : BetResult × GState :=
  let isWin : Bool := decide (rand < event.winChance)
  let winAmount := if isWin then amount * (event.multiplier - 1) else -amount
  let newBalance := s.balance + winAmount
  let entry := mkEntry s event eventId amount rand now
  let newGameState :=
    if newBalance ≤ 0 then GameState.lost
    else if newBalance ≥ 10000 then GameState.won
    else s.gameState
  let newRisk := calculateRiskGame s.balance eventId (amount * (1/2))
  (BetResult.settled entry isWin,
    { balance := newBalance,
      currentRisk := newRisk,
      betHistory := entry :: s.betHistory,
      gameState := newGameState })

/-- `placeBet` from `GameContext.tsx` as a pure step function.
`rand` is the `Math.random()` draw used to resolve the outcome and `now`
the `Date.now()` timestamp.  Validation order follows the source: unknown
event or non-`playing` state, then event bet limits, then balance. -/
def placeBet (s : GState) (eventId : String) (amount rand now : ℚ) :
    BetResult × GState :=
  match findEvent eventId with
  | none => (BetResult.invalidEventOrState, s)
  | some event =>
    if s.gameState ≠ GameState.playing then (BetResult.invalidEventOrState, s)
    else if violatesLimits event amount then (BetResult.invalidAmount, s)
    else if amount > s.balance then (BetResult.insufficientBalance, s)
    else settleBet s event eventId amount rand now

/-- The boolean `placeBet` actually returns to its caller: `isWin` when the
wager settles, `false` on every rejection branch. -/
def placeBetReturn (s : GState) (eventId : String) (amount rand now : ℚ) : Bool :=
  match (placeBet s eventId amount rand now).1 with
  | BetResult.settled _ isWin => isWin
  | _ => false

/-- Whether a `BetResult` is a settled wager (as opposed to a rejection). -/
def isSettled : BetResult → Bool
  | BetResult.settled _ _ => true
  | _ => false

/-- The settled history entry of a `BetResult`, when there is one. -/
def settledEntry? : BetResult → Option BetRecord
  | BetResult.settled entry _ => some entry
  | _ => none

/-- The `balanceAfter` recorded in the settled entry of a `placeBet` output
(`0` on a rejection, which the theorems below exclude via `isSettled`). -/
def settledBalanceAfter (out : BetResult × GState) : ℚ :=
  match out.1 with
  | BetResult.settled entry _ => entry.balanceAfter
  | _ => 0

/-- Whether the outcome draw wins against the event's `winChance`
(`Math.random() < event.winChance`); `false` for an unknown event. -/
def drawWins (eventId : String) (rand : ℚ) : Bool :=
  match findEvent eventId with
  | some e => decide (rand < e.winChance)
  | none => false

/-- The initial provider state: balance 1000, default risk 15, empty
history, `playing`.  `resetGame` restores exactly this state. -/
def initialState : GState :=
  { balance := 1000, currentRisk := 15, betHistory := [], gameState := GameState.playing }

/-- One submitted wager of a session: event id, amount, the `Math.random()`
draw that resolves it, and the `Date.now()` timestamp of the call. -/
structure Cmd where
  eventId : String
  amount : ℚ
  draw : ℚ
  time : ℚ

/-- Run a sequence of `placeBet` calls from a state, keeping only the state
(the source discards the boolean after rendering). -/
def runTrace (s : GState) (tr : List Cmd) : GState :=
  tr.foldl (fun st c => (placeBet st c.eventId c.amount c.draw c.time).2) s

/-- Warning severity of the Pattern Detector (`'low' | 'medium' | 'high'`). -/
inductive Severity where
  | low
  | medium
  | high
  deriving DecidableEq

/-- `PatternRecognition.tsx` sorts a copy of the history with the comparator
`(a, b) => new Date(a.timestamp).getTime() - new Date(a.timestamp).getTime()`,
which compares `a` with itself, always returns `0`, and therefore leaves the
(stable-sorted) array in its stored order — newest bet first.  The embedded
view is accordingly the identity on the stored history. -/
def sortedBetsView (h : List BetRecord) : List BetRecord := h

/-- The counting loop of Pattern 1 ("Chasing Losses") in
`PatternRecognition.tsx`: over adjacent positions `i-1, i` of the (no-op)
sorted array, count the pairs where position `i-1` holds a loss and the
amount at position `i` exceeds `1.3` times the amount at position `i-1`. -/
def chaseLossCount : List BetRecord → ℕ
  | a :: b :: rest =>
    (if a.outcome = Outcome.loss ∧ b.betAmount > a.betAmount * (13/10) then 1 else 0) +
      chaseLossCount (b :: rest)
  | _ => 0

/-- `chaseLossRatio` of `PatternRecognition.tsx` (rendered `Frac`): the count
divided by `sortedBets.length - 1`. -/
def chaseLossFrac (h : List BetRecord) : ℚ :=
  (chaseLossCount (sortedBetsView h) : ℚ) / (((sortedBetsView h).length : ℚ) - 1)

/-- The loss-chasing warning emitted by `PatternRecognition.tsx`: `none`
below 5 bets (the component returns before detecting) or when the fraction
does not exceed `0.2`; otherwise the severity `high` above `0.4`, `medium`
above `0.3`, else `low`. -/
def lossChaseWarning (h : List BetRecord) : Option Severity :=
  if h.length < 5 then none
  else if chaseLossFrac h > 2/10 then
    some (if chaseLossFrac h > 4/10 then Severity.high
      else if chaseLossFrac h > 3/10 then Severity.medium
      else Severity.low)
  else none

/-- The loss-chasing transition count as the specification words it, for
comparison with `chaseLossCount`: over adjacent *chronological* pairs
(the list argument here is oldest first), count the pairs where the earlier
bet is a loss and the later stake is at least `1.3` times the earlier one. -/
def specChaseQualifying : List BetRecord → ℕ
  | a :: b :: rest =>
    (if a.outcome = Outcome.loss ∧ b.betAmount ≥ a.betAmount * (13/10) then 1 else 0) +
      specChaseQualifying (b :: rest)
  | _ => 0

/-- The specification's loss-chasing quotient on a stored (newest-first)
history: qualifying chronological transitions over the `length - 1`
adjacent transitions. -/
def specChronoChaseFrac (h : List BetRecord) : ℚ :=
  (specChaseQualifying h.reverse : ℚ) / ((h.length : ℚ) - 1)

/-- `bankrollPercentages` of `PatternRecognition.tsx` Pattern 5 ("Large
Stakes"): each bet's amount as a percentage of its own `balanceAfter`. -/
def bankrollPercentages (h : List BetRecord) : List ℚ :=
  h.map (fun bet => bet.betAmount / bet.balanceAfter * 100)

/-- `betSizeRatios` of `calculateUserMetrics` (`analyticsUtils.ts`, rendered
`Shares`) and of `calculateMetrics` in `PredictiveAnalytics.tsx`: each bet's
amount divided by its own `balanceAfter`. -/
def betSizeShares (h : List BetRecord) : List ℚ :=
  h.map (fun bet => bet.betAmount / bet.balanceAfter)

/-- `stakePercentages` of `FinancialMetrics.tsx`: amount as a percentage of
the record's own `balanceAfter`. -/
def stakePercentages (h : List BetRecord) : List ℚ :=
  h.map (fun bet => bet.betAmount / bet.balanceAfter * 100)

/-- Stable sort of a history newest-first, as
`[...betHistory].sort((a, b) => new Date(b.timestamp).getTime() - new Date(a.timestamp).getTime())`. -/
def sortNewestFirst (h : List BetRecord) : List BetRecord :=
  h.mergeSort (fun a b => b.timestamp ≤ a.timestamp)

/-- Stable sort of a history oldest-first, as
`[...betHistory].sort((a, b) => new Date(a.timestamp).getTime() - new Date(b.timestamp).getTime())`. -/
def sortOldestFirst (h : List BetRecord) : List BetRecord :=
  h.mergeSort (fun a b => a.timestamp ≤ b.timestamp)

/-- The adjacent time gaps of a sorted history, in days
(`(t[i] - t[i-1]) / (1000 * 60 * 60 * 24)` milliseconds-to-days). -/
def adjacentGapsDays : List BetRecord → List ℚ
  | a :: b :: rest =>
    (b.timestamp - a.timestamp) / (1000 * 60 * 60 * 24) :: adjacentGapsDays (b :: rest)
  | _ => []

/-- Adjacent differences `history[i] - history[i-1]` of a numeric series
(the `balanceChanges` loop of `generateProjections`). -/
def adjacentDiffs : List ℚ → List ℚ
  | a :: b :: rest => (b - a) :: adjacentDiffs (b :: rest)
  | _ => []

/-- The metrics record returned by `calculateMetrics` in
`PredictiveAnalytics.tsx` (field `avgBetSizeRatio` rendered
`avgBetSizeShare`). -/
structure ProjMetrics where
  winRate : ℚ
  avgBetSize : ℚ
  avgRiskLevel : ℚ
  winRateTrend : ℚ
  betSizeTrend : ℚ
  riskTrend : ℚ
  recentWinRate : ℚ
  bettingFrequency : ℚ
  avgBetSizeShare : ℚ
  betSizeStdDev : ℚ

/-- `calculateMetrics` from `PredictiveAnalytics.tsx`.  `sqrtFn` stands for
`Math.sqrt`.  Divisions follow the source; on the empty history the source
would divide by zero, but the component only calls this with at least five
bets. -/
def calculateMetrics (sqrtFn : ℚ → ℚ) (betHistory : List BetRecord) : ProjMetrics :=
  let wins := (betHistory.filter (fun bet => bet.outcome == Outcome.win)).length
  let winRate := if 0 < betHistory.length then (wins : ℚ) / betHistory.length else 0
  let avgBetSize := (betHistory.map (fun bet => bet.betAmount)).sum / betHistory.length
  let avgRiskLevel :=
    (betHistory.map (fun bet => (bet.riskPercentage : ℚ))).sum / betHistory.length
  let recentBets := (sortNewestFirst betHistory).take 5
  let recentWinRate :=
    ((recentBets.filter (fun bet => bet.outcome == Outcome.win)).length : ℚ) /
      recentBets.length
  let recentAvgBetSize := (recentBets.map (fun bet => bet.betAmount)).sum / recentBets.length
  let recentRiskLevel :=
    (recentBets.map (fun bet => (bet.riskPercentage : ℚ))).sum / recentBets.length
  let winRateTrend := (recentWinRate - winRate) * (1/2)
  let betSizeTrend := ((recentAvgBetSize - avgBetSize) / avgBetSize) * (3/10)
  let riskTrend := ((recentRiskLevel - avgRiskLevel) / avgRiskLevel) * (2/10)
  let bettingFrequency :=
    if 1 < betHistory.length then
      (adjacentGapsDays (sortOldestFirst betHistory)).sum /
        ((adjacentGapsDays (sortOldestFirst betHistory)).length : ℚ)
    else 0
  let shares := betSizeShares betHistory
  let avgBetSizeShare := shares.sum / shares.length
  let betSizeStdDev :=
    sqrtFn ((shares.map (fun x => (x - avgBetSizeShare)^2)).sum / shares.length)
  { winRate := winRate, avgBetSize := avgBetSize, avgRiskLevel := avgRiskLevel,
    winRateTrend := winRateTrend, betSizeTrend := betSizeTrend, riskTrend := riskTrend,
    recentWinRate := recentWinRate, bettingFrequency := bettingFrequency,
    avgBetSizeShare := avgBetSizeShare, betSizeStdDev := betSizeStdDev }

/-- `randomVariation` of `generateProjections`:
`Math.random() * 0.2 - 0.1`, applied to an explicit draw. -/
def randomVariation (r : ℚ) : ℚ := r * (2/10) - 1/10

/-- The per-iteration mutable variables of the `generateProjections` loop:
projected balance, nudged win rate / bet size / risk level, and whether the
current iteration's draw won. -/
structure LoopState where
  pb : ℚ
  wr : ℚ
  bs : ℚ
  rl : ℚ
  won : Bool

/-- One iteration of the `generateProjections` simulation loop.  Iteration
`i` consumes the four `Math.random()` draws `rand (4*i) .. rand (4*i+3)`:
three `randomVariation` calls (win-rate, bet-size, risk-level nudges) and
the Bernoulli outcome draw, in source order. -/
def projStep (m : ProjMetrics) (rand : ℕ → ℚ) (numBets : ℕ) (i : ℕ)
    (st : LoopState) : LoopState :=
  let wr := max (1/100) (min (95/100)
    (st.wr + m.winRateTrend / (numBets : ℚ) + randomVariation (rand (4*i)) * (5/100)))
  let bs := max 10
    (st.bs * (1 + m.betSizeTrend / (numBets : ℚ) + randomVariation (rand (4*i+1)) * (1/10)))
  let rl := max 5 (min 95
    (st.rl + m.riskTrend / (numBets : ℚ) + randomVariation (rand (4*i+2))))
  let isWin : Bool := decide (rand (4*i+3) < wr)
  let avgReturn := 1 + rl / 100
  let pb := if isWin then st.pb + bs * avgReturn * (8/10) else st.pb - bs
  let pb := max 0 pb
  { pb := pb, wr := wr, bs := bs, rl := rl, won := isWin }

/-- Run the simulation loop over a list of iteration indices, returning the
sequence of post-iteration states (one per simulated bet, in order). -/
def projRun (m : ProjMetrics) (rand : ℕ → ℚ) (numBets : ℕ) :
    List ℕ → LoopState → List LoopState
  | [], _ => []
  | i :: rest, st =>
    let st' := projStep m rand numBets i st
    st' :: projRun m rand numBets rest st'

/-- Risk categories of `mapRiskScoreToCategory`
(`'Very Low' | 'Low' | 'Medium' | 'High' | 'Very High'`). -/
inductive RiskCategory where
  | veryLow
  | low
  | medium
  | high
  | veryHigh
  deriving DecidableEq

/-- Profit-potential levels of `generateProjections`
(`'High' | 'Medium' | 'Low'`). -/
inductive ProfitLevel where
  | high
  | medium
  | low
  deriving DecidableEq

/-- `mapRiskScoreToCategory` from `analyticsUtils.ts` (also inlined in
`generateProjections`). -/
def mapRiskScoreToCategory (riskScore : ℚ) : RiskCategory :=
  if riskScore < 20 then RiskCategory.veryLow
  else if riskScore < 40 then RiskCategory.low
  else if riskScore < 60 then RiskCategory.medium
  else if riskScore < 80 then RiskCategory.high
  else RiskCategory.veryHigh

/-- The explainable five-component breakdown exposed as `riskBreakdown`. -/
structure RiskBreakdown where
  finalBalanceContribution : ℚ
  minBalanceContribution : ℚ
  volatilityContribution : ℚ
  varContribution : ℚ
  betSizingContribution : ℚ

/-- Result record of `calculateBankruptcyRiskScore` (`analyticsUtils.ts`). -/
structure BankruptcyRisk where
  riskScore : ℚ
  riskCategory : RiskCategory
  breakdown : RiskBreakdown

/-- `calculateBankruptcyRiskScore` from `analyticsUtils.ts`: five
independently capped components (30/25/20/15/10) summed into the composite
score, with guarded divisions on `initialBalance` and `avgBalance`
(`...Ratio` locals rendered `...Frac`). -/
def calculateBankruptcyRiskScore (finalBalance minBalance initialBalance
    balanceVolatility valueAtRisk avgBalance betSizeStdDev : ℚ) : BankruptcyRisk :=
  let finalBalanceFrac := if 0 < initialBalance then finalBalance / initialBalance else 0
  let finalBalanceScore := max 0 (min 30 (30 * (1 - finalBalanceFrac)))
  let minBalanceFrac := if 0 < initialBalance then minBalance / initialBalance else 0
  let minBalanceScore := max 0 (min 25 (25 * (1 - minBalanceFrac)))
  let volatilityScore := min 20 (20 * balanceVolatility)
  let varFrac := if 0 < avgBalance then valueAtRisk / avgBalance else 0
  let varScore := min 15 (15 * varFrac)
  let betSizingScore := min 10 (10 * betSizeStdDev * 5)
  let riskScore := finalBalanceScore + minBalanceScore + volatilityScore +
    varScore + betSizingScore
  { riskScore := riskScore,
    riskCategory := mapRiskScoreToCategory riskScore,
    breakdown :=
      { finalBalanceContribution := finalBalanceScore,
        minBalanceContribution := minBalanceScore,
        volatilityContribution := volatilityScore,
        varContribution := varScore,
        betSizingContribution := betSizingScore } }

/-- Output record of `generateProjections` in `PredictiveAnalytics.tsx`. -/
structure ProjectionResult where
  finalBalance : ℚ
  projectedWinRate : ℚ
  maxBalance : ℚ
  minBalance : ℚ
  averageBetSize : ℚ
  averageRiskLevel : ℚ
  bankruptcyRiskScore : ℚ
  bankruptcyRiskCategory : RiskCategory
  balanceVolatility : ℚ
  valueAtRisk : ℚ
  profitPotential : ProfitLevel
  riskBreakdown : RiskBreakdown

/-- `generateProjections` from `PredictiveAnalytics.tsx`.  `sqrtFn` stands
for `Math.sqrt`, `rand` for the `Math.random()` stream (four draws per
iteration), `numBets` for the parsed projection period, `balance` for the
current balance.  The risk-score components are computed inline exactly as
in the source (`...Ratio` locals rendered `...Frac`). -/
def generateProjections (sqrtFn : ℚ → ℚ) (rand : ℕ → ℚ) (numBets : ℕ)
    (balance : ℚ) (betHistory : List BetRecord) : ProjectionResult :=
  let metrics := calculateMetrics sqrtFn betHistory
  let st0 : LoopState :=
    { pb := balance, wr := metrics.winRate, bs := metrics.avgBetSize,
      rl := metrics.avgRiskLevel, won := false }
  let states := projRun metrics rand numBets (List.range numBets) st0
  let projectedBalance := (states.map (fun st => st.pb)).getLastD balance
  let totalWins := (states.filter (fun st => st.won)).length
  let balanceHistory := balance :: states.map (fun st => st.pb)
  let avgBalance := balanceHistory.sum / (balanceHistory.length : ℚ)
  let balanceStdDev :=
    sqrtFn ((balanceHistory.map (fun b => (b - avgBalance)^2)).sum /
      (balanceHistory.length : ℚ))
  let balanceChanges := adjacentDiffs balanceHistory
  let sortedChanges := balanceChanges.mergeSort (fun a b => a ≤ b)
  let valueAtRisk := |sortedChanges.getD (balanceChanges.length * 5 / 100) 0|
  let minBalance := (states.map (fun st => st.pb)).foldl min balance
  let finalBalanceFrac := projectedBalance / balance
  let finalBalanceScore := max 0 (min 30 (30 * (1 - finalBalanceFrac)))
  let minBalanceFrac := minBalance / balance
  let minBalanceScore := max 0 (min 25 (25 * (1 - minBalanceFrac)))
  let volatilityFrac := balanceStdDev / avgBalance
  let volatilityScore := min 20 (20 * volatilityFrac)
  let varFrac := valueAtRisk / avgBalance
  let varScore := min 15 (15 * varFrac)
  let betSizingScore := min 10 (10 * metrics.betSizeStdDev * 5)
  let riskScore := finalBalanceScore + minBalanceScore + volatilityScore +
    varScore + betSizingScore
  { finalBalance := projectedBalance,
    projectedWinRate := (totalWins : ℚ) / (numBets : ℚ),
    maxBalance := (states.map (fun st => st.pb)).foldl max balance,
    minBalance := minBalance,
    averageBetSize := (states.map (fun st => st.bs)).sum / (numBets : ℚ),
    averageRiskLevel := (states.map (fun st => st.rl)).sum / (numBets : ℚ),
    bankruptcyRiskScore := riskScore,
    bankruptcyRiskCategory := mapRiskScoreToCategory riskScore,
    balanceVolatility := balanceStdDev / avgBalance,
    valueAtRisk := valueAtRisk,
    profitPotential :=
      if projectedBalance > balance * (15/10) then ProfitLevel.high
      else if projectedBalance > balance * (11/10) then ProfitLevel.medium
      else ProfitLevel.low,
    riskBreakdown :=
      { finalBalanceContribution := finalBalanceScore,
        minBalanceContribution := minBalanceScore,
        volatilityContribution := volatilityScore,
        varContribution := varScore,
        betSizingContribution := betSizingScore } }

/-- The documented-cap property of a projection result: each of the five
`riskBreakdown` components is non-negative and within its cap
(30/25/20/15/10), and the five sum exactly to `bankruptcyRiskScore`. -/
def breakdownOk (P : ProjectionResult) : Prop :=
  0 ≤ P.riskBreakdown.finalBalanceContribution ∧
  P.riskBreakdown.finalBalanceContribution ≤ 30 ∧
  0 ≤ P.riskBreakdown.minBalanceContribution ∧
  P.riskBreakdown.minBalanceContribution ≤ 25 ∧
  0 ≤ P.riskBreakdown.volatilityContribution ∧
  P.riskBreakdown.volatilityContribution ≤ 20 ∧
  0 ≤ P.riskBreakdown.varContribution ∧
  P.riskBreakdown.varContribution ≤ 15 ∧
  0 ≤ P.riskBreakdown.betSizingContribution ∧
  P.riskBreakdown.betSizingContribution ≤ 10 ∧
  P.riskBreakdown.finalBalanceContribution + P.riskBreakdown.minBalanceContribution +
    P.riskBreakdown.volatilityContribution + P.riskBreakdown.varContribution +
    P.riskBreakdown.betSizingContribution = P.bankruptcyRiskScore

/-- The same documented-cap property for `calculateBankruptcyRiskScore`
output (`analyticsUtils.ts`). -/
def brsOk (B : BankruptcyRisk) : Prop :=
  0 ≤ B.breakdown.finalBalanceContribution ∧
  B.breakdown.finalBalanceContribution ≤ 30 ∧
  0 ≤ B.breakdown.minBalanceContribution ∧
  B.breakdown.minBalanceContribution ≤ 25 ∧
  0 ≤ B.breakdown.volatilityContribution ∧
  B.breakdown.volatilityContribution ≤ 20 ∧
  0 ≤ B.breakdown.varContribution ∧
  B.breakdown.varContribution ≤ 15 ∧
  0 ≤ B.breakdown.betSizingContribution ∧
  B.breakdown.betSizingContribution ≤ 10 ∧
  B.breakdown.finalBalanceContribution + B.breakdown.minBalanceContribution +
    B.breakdown.volatilityContribution + B.breakdown.varContribution +
    B.breakdown.betSizingContribution = B.riskScore

/-- A five-bet stored history (newest first), the failing input for the
loss-chasing rule: chronologically the stakes 100, 200, 400, 800, 1600 each
more than double after a loss (textbook loss chasing), the last bet winning. -/
def c7History : List BetRecord :=
  [ { id := "bet-4", eventId := "coin-flip", eventName := "Coin Flip",
      betAmount := 1600, outcome := Outcome.win, winAmount := 1600,
      balanceAfter := 5100, riskPercentage := 60, timestamp := 240000 },
    { id := "bet-3", eventId := "coin-flip", eventName := "Coin Flip",
      betAmount := 800, outcome := Outcome.loss, winAmount := 0,
      balanceAfter := 3500, riskPercentage := 40, timestamp := 180000 },
    { id := "bet-2", eventId := "coin-flip", eventName := "Coin Flip",
      betAmount := 400, outcome := Outcome.loss, winAmount := 0,
      balanceAfter := 4300, riskPercentage := 30, timestamp := 120000 },
    { id := "bet-1", eventId := "coin-flip", eventName := "Coin Flip",
      betAmount := 200, outcome := Outcome.loss, winAmount := 0,
      balanceAfter := 4700, riskPercentage := 25, timestamp := 60000 },
    { id := "bet-0", eventId := "coin-flip", eventName := "Coin Flip",
      betAmount := 100, outcome := Outcome.loss, winAmount := 0,
      balanceAfter := 4900, riskPercentage := 20, timestamp := 0 } ]

/-- A two-wager session: two losing 10-unit Coin Flip bets at times 0, 1. -/
def twoBetTrace : List Cmd :=
  [ { eventId := coinFlipId, amount := 10, draw := 9/10, time := 0 },
    { eventId := coinFlipId, amount := 10, draw := 9/10, time := 1 } ]

/-- A five-wager session: four losing 10-unit Coin Flip bets, then an all-in
losing 960-unit Coin Flip bet, driving the balance to exactly 0. -/
def allInTrace : List Cmd :=
  [ { eventId := coinFlipId, amount := 10, draw := 9/10, time := 0 },
    { eventId := coinFlipId, amount := 10, draw := 9/10, time := 1 },
    { eventId := coinFlipId, amount := 10, draw := 9/10, time := 2 },
    { eventId := coinFlipId, amount := 10, draw := 9/10, time := 3 },
    { eventId := coinFlipId, amount := 960, draw := 9/10, time := 4 } ]

/-- The record a losing Coin Flip wager of `amount` at time `tstamp` leaves
when placed at balance `priorBalance` (so `balanceAfter` is
`priorBalance - amount`); used to spell out the all-in session states. -/
def aiRec (amount balanceAfter tstamp priorBalance : ℚ) : BetRecord :=
  { id := "bet-" ++ toString tstamp, eventId := coinFlipId,
    eventName := coinFlip.name, betAmount := amount, outcome := Outcome.loss,
    winAmount := 0, balanceAfter := balanceAfter,
    riskPercentage := calculateRiskGame priorBalance coinFlipId amount,
    timestamp := tstamp }

/-- The state after the first bet of `allInTrace`. -/
def aiS1 : GState :=
  { balance := 990, currentRisk := calculateRiskGame 1000 coinFlipId (10 * (1/2)),
    betHistory := [aiRec 10 990 0 1000], gameState := GameState.playing }

/-- The state after the second bet of `allInTrace`. -/
def aiS2 : GState :=
  { balance := 980, currentRisk := calculateRiskGame 990 coinFlipId (10 * (1/2)),
    betHistory := [aiRec 10 980 1 990, aiRec 10 990 0 1000],
    gameState := GameState.playing }

/-- The state after the third bet of `allInTrace`. -/
def aiS3 : GState :=
  { balance := 970, currentRisk := calculateRiskGame 980 coinFlipId (10 * (1/2)),
    betHistory := [aiRec 10 970 2 980, aiRec 10 980 1 990, aiRec 10 990 0 1000],
    gameState := GameState.playing }

/-- The state after the fourth bet of `allInTrace`. -/
def aiS4 : GState :=
  { balance := 960, currentRisk := calculateRiskGame 970 coinFlipId (10 * (1/2)),
    betHistory := [aiRec 10 960 3 970, aiRec 10 970 2 980, aiRec 10 980 1 990,
      aiRec 10 990 0 1000],
    gameState := GameState.playing }

/-- The state after the all-in fifth bet of `allInTrace`: balance 0, lost. -/
def aiS5 : GState :=
  { balance := 0, currentRisk := calculateRiskGame 960 coinFlipId (960 * (1/2)),
    betHistory := [aiRec 960 0 4 960, aiRec 10 960 3 970, aiRec 10 970 2 980,
      aiRec 10 980 1 990, aiRec 10 990 0 1000],
    gameState := GameState.lost }

/-- JavaScript number semantics for the values the projection's divisions
can produce: an exact rational, the two infinities, or NaN (IEEE-754
doubles with the signed zeros collapsed to `fin 0`, which does not affect
the computations modelled here).  The exact-rational model above and the
float semantics agree while every denominator is non-zero; `JsNum` is used
to evaluate the component formulas where they part ways. -/
inductive JsNum where
  | fin (q : ℚ)
  | posInf
  | negInf
  | nan
  deriving DecidableEq

/-- IEEE negation (used to derive subtraction). -/
def jsNeg : JsNum → JsNum
  | JsNum.fin q => JsNum.fin (-q)
  | JsNum.posInf => JsNum.negInf
  | JsNum.negInf => JsNum.posInf
  | JsNum.nan => JsNum.nan

/-- IEEE addition: NaN propagates, opposite infinities give NaN. -/
def jsAdd : JsNum → JsNum → JsNum
  | JsNum.nan, _ => JsNum.nan
  | _, JsNum.nan => JsNum.nan
  | JsNum.posInf, JsNum.negInf => JsNum.nan
  | JsNum.negInf, JsNum.posInf => JsNum.nan
  | JsNum.posInf, _ => JsNum.posInf
  | _, JsNum.posInf => JsNum.posInf
  | JsNum.negInf, _ => JsNum.negInf
  | _, JsNum.negInf => JsNum.negInf
  | JsNum.fin a, JsNum.fin b => JsNum.fin (a + b)

/-- IEEE subtraction: `x - y = x + (-y)`. -/
def jsSub (a b : JsNum) : JsNum := jsAdd a (jsNeg b)

/-- IEEE multiplication: NaN propagates, `0 * ±∞` is NaN. -/
def jsMul : JsNum → JsNum → JsNum
  | JsNum.nan, _ => JsNum.nan
  | _, JsNum.nan => JsNum.nan
  | JsNum.fin a, JsNum.fin b => JsNum.fin (a * b)
  | JsNum.fin a, JsNum.posInf =>
    if a = 0 then JsNum.nan else if 0 < a then JsNum.posInf else JsNum.negInf
  | JsNum.posInf, JsNum.fin a =>
    if a = 0 then JsNum.nan else if 0 < a then JsNum.posInf else JsNum.negInf
  | JsNum.fin a, JsNum.negInf =>
    if a = 0 then JsNum.nan else if 0 < a then JsNum.negInf else JsNum.posInf
  | JsNum.negInf, JsNum.fin a =>
    if a = 0 then JsNum.nan else if 0 < a then JsNum.negInf else JsNum.posInf
  | JsNum.posInf, JsNum.posInf => JsNum.posInf
  | JsNum.posInf, JsNum.negInf => JsNum.negInf
  | JsNum.negInf, JsNum.posInf => JsNum.negInf
  | JsNum.negInf, JsNum.negInf => JsNum.posInf

/-- IEEE division as JavaScript computes it: `0 / 0` is NaN, a non-zero
finite numerator over zero gives a signed infinity (the collapsed `fin 0`
denominator behaves as `+0`), a finite numerator over an infinity gives 0,
`∞ / ∞` is NaN, and NaN propagates. -/
def jsDiv : JsNum → JsNum → JsNum
  | JsNum.nan, _ => JsNum.nan
  | _, JsNum.nan => JsNum.nan
  | JsNum.fin a, JsNum.fin b =>
    if b = 0 then (if a = 0 then JsNum.nan
      else if 0 < a then JsNum.posInf else JsNum.negInf)
    else JsNum.fin (a / b)
  | JsNum.fin _, JsNum.posInf => JsNum.fin 0
  | JsNum.fin _, JsNum.negInf => JsNum.fin 0
  | JsNum.posInf, JsNum.fin a =>
    if 0 ≤ a then JsNum.posInf else JsNum.negInf
  | JsNum.negInf, JsNum.fin a =>
    if 0 ≤ a then JsNum.negInf else JsNum.posInf
  | JsNum.posInf, JsNum.posInf => JsNum.nan
  | JsNum.posInf, JsNum.negInf => JsNum.nan
  | JsNum.negInf, JsNum.posInf => JsNum.nan
  | JsNum.negInf, JsNum.negInf => JsNum.nan

/-- `Math.min`: NaN if either argument is NaN, otherwise the smaller. -/
def jsMin : JsNum → JsNum → JsNum
  | JsNum.nan, _ => JsNum.nan
  | _, JsNum.nan => JsNum.nan
  | JsNum.negInf, _ => JsNum.negInf
  | _, JsNum.negInf => JsNum.negInf
  | JsNum.posInf, b => b
  | a, JsNum.posInf => a
  | JsNum.fin a, JsNum.fin b => if a ≤ b then JsNum.fin a else JsNum.fin b

/-- `Math.max`: NaN if either argument is NaN, otherwise the larger. -/
def jsMax : JsNum → JsNum → JsNum
  | JsNum.nan, _ => JsNum.nan
  | _, JsNum.nan => JsNum.nan
  | JsNum.posInf, _ => JsNum.posInf
  | _, JsNum.posInf => JsNum.posInf
  | JsNum.negInf, b => b
  | a, JsNum.negInf => a
  | JsNum.fin a, JsNum.fin b => if a ≤ b then JsNum.fin b else JsNum.fin a

/-- JavaScript `<=`: any comparison against NaN is false. -/
def jsLe : JsNum → JsNum → Bool
  | JsNum.nan, _ => false
  | _, JsNum.nan => false
  | JsNum.negInf, _ => true
  | _, JsNum.negInf => false
  | _, JsNum.posInf => true
  | JsNum.posInf, _ => false
  | JsNum.fin a, JsNum.fin b => decide (a ≤ b)

/-- `Math.sqrt` on the special values (NaN for NaN and negatives, `+∞` for
`+∞`), with the finite non-negative case delegated to the same abstract
square-root primitive `sqrtFin` the rational model uses. -/
def jsSqrt (sqrtFin : ℚ → ℚ) : JsNum → JsNum
  | JsNum.nan => JsNum.nan
  | JsNum.posInf => JsNum.posInf
  | JsNum.negInf => JsNum.nan
  | JsNum.fin q => if q < 0 then JsNum.nan else JsNum.fin (sqrtFin q)

/-- `betSizeRatios` of `calculateMetrics` under JavaScript number
semantics: `bet.betAmount / bet.balanceAfter` per record, so a record with
`balanceAfter = 0` and a positive stake yields `+∞`. -/
def betSizeSharesJs (h : List BetRecord) : List JsNum :=
  h.map fun bet => jsDiv (JsNum.fin bet.betAmount) (JsNum.fin bet.balanceAfter)

/-- `betSizeStdDev` of `calculateMetrics` under JavaScript number
semantics: the mean of the share series and the root of the mean squared
deviation, with the source's `reduce`-with-`Math.pow(x, 2)` accumulation. -/
def betSizeStdDevJs (sqrtFin : ℚ → ℚ) (h : List BetRecord) : JsNum :=
  let shares := betSizeSharesJs h
  let avgShare := jsDiv (shares.foldl jsAdd (JsNum.fin 0))
    (JsNum.fin (shares.length : ℚ))
  jsSqrt sqrtFin (jsDiv
    (shares.foldl (fun sum x => jsAdd sum (jsMul (jsSub x avgShare) (jsSub x avgShare)))
      (JsNum.fin 0))
    (JsNum.fin (shares.length : ℚ)))

/-- The bet-sizing component `Math.min(10, 10 * metrics.betSizeStdDev * 5)`
of `generateProjections` under JavaScript number semantics. -/
def betSizingScoreJs (sqrtFin : ℚ → ℚ) (h : List BetRecord) : JsNum :=
  jsMin (JsNum.fin 10)
    (jsMul (jsMul (JsNum.fin 10) (betSizeStdDevJs sqrtFin h)) (JsNum.fin 5))

/-- The final-balance component
`Math.max(0, Math.min(30, 30 * (1 - projectedBalance / balance)))` of
`generateProjections` under JavaScript number semantics. -/
def finalBalanceScoreJs (projectedBalance balance : JsNum) : JsNum :=
  jsMax (JsNum.fin 0) (jsMin (JsNum.fin 30)
    (jsMul (JsNum.fin 30) (jsSub (JsNum.fin 1) (jsDiv projectedBalance balance))))

lemma findEvent_coinFlip : findEvent coinFlipId = some coinFlip := by
  simp [findEvent, betEvents, List.find?, coinFlip, coinFlipId]

lemma findEvent_mem {eid : String} {e : BetEvent} (h : findEvent eid = some e) :
    e ∈ betEvents :=
  List.mem_of_find?_eq_some h

lemma betEvents_minBet_pos : ∀ e ∈ betEvents, 0 < e.minBet ∧ 1 ≤ e.multiplier := by
  intro e he
  simp only [betEvents, List.mem_cons, List.not_mem_nil, or_false] at he
  rcases he with h | h | h | h | h | h <;> subst h <;>
    constructor <;>
    norm_num [coinFlip, diceRoll, bullseye, roulette, sportsMatch, megaJackpot]

lemma violatesLimits_false_minBet {event : BetEvent} {a : ℚ}
    (h : violatesLimits event a = false) : event.minBet ≤ a := by
  unfold violatesLimits at h
  rw [Bool.or_eq_false_iff] at h
  exact not_lt.mp (of_decide_eq_false h.1)

lemma settleBet_fst_isSettled (s : GState) (event : BetEvent) (eid : String)
    (a r t : ℚ) : isSettled (settleBet s event eid a r t).1 = true := by
  simp [settleBet, isSettled]

lemma settleBet_fst_entry (s : GState) (event : BetEvent) (eid : String)
    (a r t : ℚ) :
    settledEntry? (settleBet s event eid a r t).1 = some (mkEntry s event eid a r t) := by
  simp [settleBet, settledEntry?]

lemma settleBet_balanceAfter (s : GState) (event : BetEvent) (eid : String)
    (a r t : ℚ) :
    settledBalanceAfter (settleBet s event eid a r t) =
      s.balance + (if r < event.winChance then a * (event.multiplier - 1) else -a) := by
  simp [settleBet, settledBalanceAfter, mkEntry]

lemma settleBet_snd_balance (s : GState) (event : BetEvent) (eid : String)
    (a r t : ℚ) :
    (settleBet s event eid a r t).2.balance =
      s.balance + (if r < event.winChance then a * (event.multiplier - 1) else -a) := by
  simp [settleBet]

lemma settleBet_snd_history (s : GState) (event : BetEvent) (eid : String)
    (a r t : ℚ) :
    (settleBet s event eid a r t).2.betHistory =
      mkEntry s event eid a r t :: s.betHistory := by
  simp [settleBet]

lemma settleBet_snd_gameState (s : GState) (event : BetEvent) (eid : String)
    (a r t : ℚ) :
    (settleBet s event eid a r t).2.gameState =
      (if settledBalanceAfter (settleBet s event eid a r t) ≤ 0 then GameState.lost
       else if settledBalanceAfter (settleBet s event eid a r t) ≥ 10000 then GameState.won
       else s.gameState) := by
  rw [settleBet_balanceAfter]
  simp [settleBet]

lemma mkEntry_timestamp (s : GState) (event : BetEvent) (eid : String)
    (a r t : ℚ) : (mkEntry s event eid a r t).timestamp = t := rfl

lemma mkEntry_balanceAfter (s : GState) (event : BetEvent) (eid : String)
    (a r t : ℚ) :
    (mkEntry s event eid a r t).balanceAfter =
      s.balance + (if r < event.winChance then a * (event.multiplier - 1) else -a) := by
  simp [mkEntry]

lemma placeBet_accepted {s : GState} {event : BetEvent} {eid : String} {a : ℚ}
    (r t : ℚ) (hfind : findEvent eid = some event)
    (hplay : s.gameState = GameState.playing)
    (hlim : violatesLimits event a = false) (hbal : a ≤ s.balance) :
    placeBet s eid a r t = settleBet s event eid a r t := by
  unfold placeBet
  rw [hfind]
  simp [hplay, hlim, not_lt.mpr hbal]

lemma placeBet_terminal {s : GState} (eid : String) (a r t : ℚ)
    (h : s.gameState ≠ GameState.playing) :
    placeBet s eid a r t = (BetResult.invalidEventOrState, s) := by
  unfold placeBet
  cases hf : findEvent eid <;> simp [h]

lemma placeBet_result_cases (s : GState) (eid : String) (a r t : ℚ) :
    (isSettled (placeBet s eid a r t).1 = false ∧ (placeBet s eid a r t).2 = s) ∨
    (∃ event, findEvent eid = some event ∧ s.gameState = GameState.playing ∧
      violatesLimits event a = false ∧ a ≤ s.balance ∧
      placeBet s eid a r t = settleBet s event eid a r t) := by
  unfold placeBet
  cases hf : findEvent eid with
  | none => exact Or.inl ⟨rfl, rfl⟩
  | some event =>
    by_cases hplay : s.gameState = GameState.playing
    · cases hlim : violatesLimits event a with
      | true => exact Or.inl (by constructor <;> simp [hplay, hlim, isSettled])
      | false =>
        by_cases hbal : a > s.balance
        · exact Or.inl (by constructor <;> simp [hplay, hlim, hbal, isSettled])
        · exact Or.inr ⟨event, rfl, hplay, hlim, not_lt.mp hbal,
            by simp [hplay, hlim, hbal]⟩
    · exact Or.inl (by constructor <;> simp [hplay, isSettled])

lemma placeBet_rejected_state {s : GState} {eid : String} {a r t : ℚ}
    (h : isSettled (placeBet s eid a r t).1 = false) :
    (placeBet s eid a r t).2 = s := by
  rcases placeBet_result_cases s eid a r t with ⟨_, hstate⟩ | ⟨event, _, _, _, _, heq⟩
  · exact hstate
  · rw [heq, settleBet_fst_isSettled] at h
    cases h

lemma placeBet_settled_inv {s : GState} {eid : String} {a r t : ℚ}
    (h : isSettled (placeBet s eid a r t).1 = true) :
    ∃ event, findEvent eid = some event ∧ s.gameState = GameState.playing ∧
      violatesLimits event a = false ∧ a ≤ s.balance ∧
      placeBet s eid a r t = settleBet s event eid a r t := by
  rcases placeBet_result_cases s eid a r t with ⟨hrej, _⟩ | hset
  · rw [h] at hrej
    cases hrej
  · exact hset

/-- C3: every rejected wager — any rejection branch of `placeBet` — leaves
the Ledger completely unchanged: the balance keeps its prior value and the
history (hence its length) is untouched. -/
theorem placeBet_rejection_atomic :
    ∀ (s : GState) (eid : String) (a r t : ℚ),
      isSettled (placeBet s eid a r t).1 = false →
      (placeBet s eid a r t).2.balance = s.balance ∧
      (placeBet s eid a r t).2.betHistory = s.betHistory := by
  intro s eid a r t h
  rw [placeBet_rejected_state h]
  exact ⟨rfl, rfl⟩

/-- Witness for C3 at a concrete rejected wager: a 5-unit Coin Flip bet
(below the 10-unit minimum) from the initial state. -/
theorem placeBet_rejection_atomic_witness :
    isSettled (placeBet initialState coinFlipId 5 (1/2) 0).1 = false ∧
    (placeBet initialState coinFlipId 5 (1/2) 0).2.balance = initialState.balance ∧
    (placeBet initialState coinFlipId 5 (1/2) 0).2.betHistory = initialState.betHistory := by
  have h : isSettled (placeBet initialState coinFlipId 5 (1/2) 0).1 = false := by
    unfold placeBet
    rw [findEvent_coinFlip]
    norm_num [initialState, violatesLimits, coinFlip, isSettled]
  exact ⟨h, placeBet_rejection_atomic initialState coinFlipId 5 (1/2) 0 h⟩

/-- C9: the boolean `placeBet` returns equals `isWin` of a settled wager and
`false` on every rejection, so it is `true` exactly when the wager is
accepted and the draw wins; a rejection and a settled loss are
indistinguishable from the return value. -/
theorem placeBet_return_isWin :
    ∀ (s : GState) (eid : String) (a r t : ℚ),
      placeBetReturn s eid a r t =
        (isSettled (placeBet s eid a r t).1 && drawWins eid r) := by
  intro s eid a r t
  unfold placeBetReturn
  rcases placeBet_result_cases s eid a r t with ⟨hrej, _⟩ | ⟨event, hf, _, _, _, heq⟩
  · rw [hrej, Bool.false_and]
    cases hres : (placeBet s eid a r t).1 with
    | settled entry w => rw [hres] at hrej; cases hrej
    | invalidEventOrState => rfl
    | invalidAmount => rfl
    | insufficientBalance => rfl
  · rw [heq, settleBet_fst_isSettled, Bool.true_and]
    unfold drawWins
    rw [hf]
    simp [settleBet]

lemma drawWins_eq {eid : String} {event : BetEvent} (r : ℚ)
    (hfind : findEvent eid = some event) :
    drawWins eid r = decide (r < event.winChance) := by
  unfold drawWins
  rw [hfind]

lemma runTrace_cons (s : GState) (c : Cmd) (tr : List Cmd) :
    runTrace s (c :: tr) =
      runTrace (placeBet s c.eventId c.amount c.draw c.time).2 tr := rfl

lemma settle_result_nonneg {s : GState} {event : BetEvent} {a : ℚ} (r : ℚ)
    (hmem : event ∈ betEvents) (hlim : violatesLimits event a = false)
    (hbal : a ≤ s.balance) :
    0 ≤ s.balance + (if r < event.winChance then a * (event.multiplier - 1) else -a) := by
  obtain ⟨hminpos, hmult⟩ := betEvents_minBet_pos event hmem
  have ha : 0 < a := lt_of_lt_of_le hminpos (violatesLimits_false_minBet hlim)
  by_cases hw : r < event.winChance
  · rw [if_pos hw]
    have : 0 ≤ a * (event.multiplier - 1) := mul_nonneg ha.le (by linarith)
    linarith
  · rw [if_neg hw]
    linarith

/-- C2: for every accepted wager, the `balanceAfter` recorded in the new
`BetRecord` equals the previous balance plus `amount * (multiplier - 1)` on
a winning draw and minus `amount` on a losing draw; it is never negative
(so flooring it at 0 is the identity), it is the new Ledger balance, and it
is the value recorded at the head of the updated history. -/
theorem placeBet_ledger_conservation :
    ∀ (s : GState) (eid : String) (a r t : ℚ) (event : BetEvent),
      findEvent eid = some event →
      isSettled (placeBet s eid a r t).1 = true →
      settledBalanceAfter (placeBet s eid a r t) =
        s.balance + (if drawWins eid r then a * (event.multiplier - 1) else -a) ∧
      settledBalanceAfter (placeBet s eid a r t) =
        max 0 (s.balance + (if drawWins eid r then a * (event.multiplier - 1) else -a)) ∧
      0 ≤ settledBalanceAfter (placeBet s eid a r t) ∧
      (placeBet s eid a r t).2.balance = settledBalanceAfter (placeBet s eid a r t) ∧
      ((placeBet s eid a r t).2.betHistory.head?.map fun e => e.balanceAfter) =
        some (settledBalanceAfter (placeBet s eid a r t)) := by
  intro s eid a r t event hfind hset
  obtain ⟨event', hfind', hplay, hlim, hbal, heq⟩ := placeBet_settled_inv hset
  rw [hfind] at hfind'
  injection hfind' with hee
  subst hee
  have hnn := settle_result_nonneg r (findEvent_mem hfind) hlim hbal
  have hiff : (if drawWins eid r = true then a * (event.multiplier - 1) else -a) =
      (if r < event.winChance then a * (event.multiplier - 1) else -a) := by
    rw [drawWins_eq r hfind]
    by_cases hw : r < event.winChance
    · rw [if_pos hw, if_pos (by simpa using hw)]
    · rw [if_neg hw, if_neg (by simpa using hw)]
  rw [heq, settleBet_balanceAfter, hiff]
  refine ⟨rfl, (max_eq_right hnn).symm, hnn, settleBet_snd_balance s event eid a r t, ?_⟩
  rw [settleBet_snd_history]
  simp [mkEntry_balanceAfter]

/-- Witness for C2: the Coin Flip win scenario — balance 1000, amount 100,
a winning draw — records `balanceAfter = 1100`. -/
theorem placeBet_ledger_conservation_witness :
    findEvent coinFlipId = some coinFlip ∧
    isSettled (placeBet initialState coinFlipId 100 (3/10) 0).1 = true ∧
    settledBalanceAfter (placeBet initialState coinFlipId 100 (3/10) 0) = 1100 := by
  have hlim : violatesLimits coinFlip 100 = false := by
    norm_num [violatesLimits, coinFlip]
  have heq : placeBet initialState coinFlipId 100 (3/10) 0 =
      settleBet initialState coinFlip coinFlipId 100 (3/10) 0 :=
    placeBet_accepted (3/10) 0 findEvent_coinFlip rfl hlim (by norm_num [initialState])
  have hset : isSettled (placeBet initialState coinFlipId 100 (3/10) 0).1 = true := by
    rw [heq]
    exact settleBet_fst_isSettled _ _ _ _ _ _
  have h := placeBet_ledger_conservation initialState coinFlipId 100 (3/10) 0 coinFlip
    findEvent_coinFlip hset
  refine ⟨findEvent_coinFlip, hset, ?_⟩
  rw [h.1, drawWins_eq (3/10) findEvent_coinFlip]
  norm_num [initialState, coinFlip]

/-- C4: an accepted wager whose settlement drives the balance to exactly 0
sets the state to `lost`, one that reaches 10000 or more sets it to `won`,
and from a `lost` or `won` state every subsequent wager is rejected and the
state never changes again. -/
theorem placeBet_terminal_transition :
    (∀ (s : GState) (eid : String) (a r t : ℚ),
        isSettled (placeBet s eid a r t).1 = true →
        (settledBalanceAfter (placeBet s eid a r t) = 0 →
          (placeBet s eid a r t).2.gameState = GameState.lost) ∧
        (10000 ≤ settledBalanceAfter (placeBet s eid a r t) →
          (placeBet s eid a r t).2.gameState = GameState.won)) ∧
    (∀ (s : GState) (tr : List Cmd),
        s.gameState = GameState.lost ∨ s.gameState = GameState.won →
        runTrace s tr = s ∧
        ∀ c ∈ tr, isSettled (placeBet s c.eventId c.amount c.draw c.time).1 = false) := by
  constructor
  · intro s eid a r t hset
    obtain ⟨event, hfind, hplay, hlim, hbal, heq⟩ := placeBet_settled_inv hset
    constructor
    · intro h0
      rw [heq] at h0 ⊢
      rw [settleBet_snd_gameState, h0]
      norm_num
    · intro h10
      rw [heq] at h10 ⊢
      rw [settleBet_snd_gameState, if_neg (by linarith), if_pos h10]
  · intro s tr hterm
    have hne : s.gameState ≠ GameState.playing := by
      rcases hterm with h | h <;> rw [h] <;> simp
    constructor
    · induction tr with
      | nil => rfl
      | cons c cs ih =>
        rw [runTrace_cons, placeBet_terminal c.eventId c.amount c.draw c.time hne]
        exact ih
    · intro c _
      rw [placeBet_terminal c.eventId c.amount c.draw c.time hne]
      rfl

/-- Witness for C4: an all-in losing Coin Flip from the initial state drives
the balance to exactly 0, the state to `lost`, and a further two-bet session
changes nothing. -/
theorem placeBet_terminal_transition_witness :
    isSettled (placeBet initialState coinFlipId 1000 (9/10) 0).1 = true ∧
    settledBalanceAfter (placeBet initialState coinFlipId 1000 (9/10) 0) = 0 ∧
    (placeBet initialState coinFlipId 1000 (9/10) 0).2.gameState = GameState.lost ∧
    runTrace (placeBet initialState coinFlipId 1000 (9/10) 0).2 twoBetTrace =
      (placeBet initialState coinFlipId 1000 (9/10) 0).2 := by
  have hlim : violatesLimits coinFlip 1000 = false := by
    norm_num [violatesLimits, coinFlip]
  have heq : placeBet initialState coinFlipId 1000 (9/10) 0 =
      settleBet initialState coinFlip coinFlipId 1000 (9/10) 0 :=
    placeBet_accepted (9/10) 0 findEvent_coinFlip rfl hlim (by norm_num [initialState])
  have hset : isSettled (placeBet initialState coinFlipId 1000 (9/10) 0).1 = true := by
    rw [heq]
    exact settleBet_fst_isSettled _ _ _ _ _ _
  have hzero : settledBalanceAfter (placeBet initialState coinFlipId 1000 (9/10) 0) = 0 := by
    rw [heq, settleBet_balanceAfter]
    norm_num [initialState, coinFlip]
  have hlost :=
    (placeBet_terminal_transition.1 initialState coinFlipId 1000 (9/10) 0 hset).1 hzero
  have hrun :=
    placeBet_terminal_transition.2 (placeBet initialState coinFlipId 1000 (9/10) 0).2
      twoBetTrace (Or.inl hlost)
  exact ⟨hset, hzero, hlost, hrun.1⟩

lemma jsRound_eval {q : ℚ} {z : ℤ} (h1 : (z : ℚ) ≤ q + 1/2) (h2 : q + 1/2 < z + 1) :
    jsRound q = z := by
  unfold jsRound
  rw [Int.floor_eq_iff]
  exact ⟨by linarith, by linarith⟩

lemma jsRound_nonneg {q : ℚ} (h : 0 ≤ q) : 0 ≤ jsRound q := by
  unfold jsRound
  exact Int.le_floor.mpr (by push_cast; linarith)

lemma calculateRisk_eval {events : List BetEvent} {balance a : ℚ} {eid : String}
    {event : BetEvent} (hfind : events.find? (fun e => e.id == eid) = some event)
    (hb : 0 < balance) :
    calculateRisk events balance eid a =
      min (jsRound (min (a / balance) 1 * 50 + (1 - event.winChance) * 30 +
        min (a / balance) 1 * 20)) 100 := by
  unfold calculateRisk
  rw [hfind]
  simp only [if_neg (not_le.mpr hb)]

lemma calcRisk_coinFlip_200 : calculateRiskGame 1000 coinFlipId 200 = 29 := by
  unfold calculateRiskGame
  rw [calculateRisk_eval findEvent_coinFlip (by norm_num)]
  have hmin : min ((200:ℚ)/1000) 1 = 1/5 := by
    rw [min_eq_left (by norm_num)]
    norm_num
  rw [hmin]
  have hraw : (1:ℚ)/5 * 50 + (1 - coinFlip.winChance) * 30 + 1/5 * 20 = 29 := by
    norm_num [coinFlip]
  rw [hraw, jsRound_eval (z := 29) (by norm_num) (by norm_num)]
  norm_num

lemma getCurrentPersona_29 : getCurrentPersona 29 = babyBetsy := by
  norm_num [getCurrentPersona, personas, List.find?, babyBetsy]

lemma personaCap_1000_29 :
    jsFloor ((1000:ℚ) * babyBetsy.maxBetPercentage) = 100 := by
  unfold jsFloor
  rw [show (1000:ℚ) * babyBetsy.maxBetPercentage = 100 by norm_num [babyBetsy]]
  rw [Int.floor_eq_iff]
  constructor <;> norm_num

/-- C1 (amended): `placeBet` performs no persona-cap validation.  A wager
submitted while the game state is `playing`, on a known event, within the
event's bet limits, and within the balance is accepted and settled — a new
record is appended — even when the amount strictly exceeds the cap
`floor(balance * maxBetPercentage)` of the persona derived from this
wager's own risk score.  (The cap is checked only by the UI submit handler,
and against the persona of the stored previous risk, not this wager's.) -/
theorem placeBet_noPersonaCap :
    ∀ (s : GState) (eid : String) (a r t : ℚ) (event : BetEvent),
      findEvent eid = some event →
      s.gameState = GameState.playing →
      violatesLimits event a = false →
      a ≤ s.balance →
      ((jsFloor (s.balance *
          (getCurrentPersona (calculateRiskGame s.balance eid a)).maxBetPercentage) : ℚ) < a) →
      isSettled (placeBet s eid a r t).1 = true ∧
      (placeBet s eid a r t).2.betHistory.length = s.betHistory.length + 1 := by
  intro s eid a r t event hfind hplay hlim hbal _hcap
  rw [placeBet_accepted r t hfind hplay hlim hbal]
  refine ⟨settleBet_fst_isSettled _ _ _ _ _ _, ?_⟩
  rw [settleBet_snd_history]
  rfl

/-- Witness for C1 (amended): a 200-unit Coin Flip bet at balance 1000
scores risk 29, giving the Baby Betsy persona with cap 100 < 200, yet the
wager settles and the history grows. -/
theorem placeBet_noPersonaCap_witness :
    findEvent coinFlipId = some coinFlip ∧
    initialState.gameState = GameState.playing ∧
    violatesLimits coinFlip 200 = false ∧
    (200:ℚ) ≤ initialState.balance ∧
    ((jsFloor (initialState.balance *
        (getCurrentPersona (calculateRiskGame initialState.balance coinFlipId 200)).maxBetPercentage) : ℚ) < 200) ∧
    isSettled (placeBet initialState coinFlipId 200 (3/4) 0).1 = true ∧
    (placeBet initialState coinFlipId 200 (3/4) 0).2.betHistory.length =
      initialState.betHistory.length + 1 := by
  have hlim : violatesLimits coinFlip 200 = false := by
    norm_num [violatesLimits, coinFlip]
  have hcap : ((jsFloor (initialState.balance *
      (getCurrentPersona (calculateRiskGame initialState.balance coinFlipId 200)).maxBetPercentage) : ℚ) < 200) := by
    show ((jsFloor ((1000:ℚ) *
      (getCurrentPersona (calculateRiskGame 1000 coinFlipId 200)).maxBetPercentage) : ℚ) < 200)
    rw [calcRisk_coinFlip_200, getCurrentPersona_29, personaCap_1000_29]
    norm_num
  obtain ⟨h1, h2⟩ := placeBet_noPersonaCap initialState coinFlipId 200 (3/4) 0 coinFlip
    findEvent_coinFlip rfl hlim (by norm_num [initialState]) hcap
  exact ⟨findEvent_coinFlip, rfl, hlim, by norm_num [initialState], hcap, h1, h2⟩

/-- Counterexample to C1 as stated: at the initial state, a 200-unit Coin
Flip wager passes all engine validations, strictly exceeds the cap of the
persona derived from its own risk score (cap 100 = floor(1000 * 10%) for
risk 29), and `placeBet` nevertheless settles it and appends a record
instead of rejecting with a persona-limit error. -/
theorem placeBet_personaCap_cex :
    initialState.gameState = GameState.playing ∧
    findEvent coinFlipId = some coinFlip ∧
    coinFlip.minBet ≤ 200 ∧
    coinFlip.maxBet = none ∧
    (200:ℚ) ≤ initialState.balance ∧
    calculateRiskGame initialState.balance coinFlipId 200 = 29 ∧
    ((jsFloor (initialState.balance *
        (getCurrentPersona (calculateRiskGame initialState.balance coinFlipId 200)).maxBetPercentage) : ℚ) < 200) ∧
    isSettled (placeBet initialState coinFlipId 200 (3/4) 0).1 = true ∧
    (placeBet initialState coinFlipId 200 (3/4) 0).2.betHistory.length = 1 := by
  have hlim : violatesLimits coinFlip 200 = false := by
    norm_num [violatesLimits, coinFlip]
  have heq : placeBet initialState coinFlipId 200 (3/4) 0 =
      settleBet initialState coinFlip coinFlipId 200 (3/4) 0 :=
    placeBet_accepted (3/4) 0 findEvent_coinFlip rfl hlim (by norm_num [initialState])
  refine ⟨rfl, findEvent_coinFlip, by norm_num [coinFlip], rfl, by norm_num [initialState],
    calcRisk_coinFlip_200, ?_, ?_, ?_⟩
  · show ((jsFloor ((1000:ℚ) *
      (getCurrentPersona (calculateRiskGame 1000 coinFlipId 200)).maxBetPercentage) : ℚ) < 200)
    rw [calcRisk_coinFlip_200, getCurrentPersona_29, personaCap_1000_29]
    norm_num
  · rw [heq]
    exact settleBet_fst_isSettled _ _ _ _ _ _
  · rw [heq, settleBet_snd_history]
    rfl

/-- C6: for a known event and inputs with positive balance, non-negative
amount, and win probability in (0, 1], `calculateRisk` returns an integer
in [0, 100], equal to the weighted blend
`betSizeFactor*50 + eventProbabilityFactor*30 + lossImpactFactor*20` (the
stake-fraction factors capped at 1) rounded and clamped to [0, 100]. -/
theorem calculateRisk_bounds :
    ∀ (events : List BetEvent) (balance a : ℚ) (eid : String) (event : BetEvent),
      events.find? (fun e => e.id == eid) = some event →
      0 < balance → 0 ≤ a → 0 < event.winChance → event.winChance ≤ 1 →
      calculateRisk events balance eid a =
        max 0 (min (jsRound (min (a / balance) 1 * 50 + (1 - event.winChance) * 30 +
          min (a / balance) 1 * 20)) 100) ∧
      0 ≤ calculateRisk events balance eid a ∧
      calculateRisk events balance eid a ≤ 100 := by
  intro events balance a eid event hfind hb ha hp1 hp2
  have hfac : 0 ≤ min (a / balance) 1 := le_min (div_nonneg ha hb.le) zero_le_one
  have hraw : 0 ≤ min (a / balance) 1 * 50 + (1 - event.winChance) * 30 +
      min (a / balance) 1 * 20 := by
    have h1 : 0 ≤ min (a / balance) 1 * 50 := mul_nonneg hfac (by norm_num)
    have h2 : 0 ≤ (1 - event.winChance) * 30 := mul_nonneg (by linarith) (by norm_num)
    have h3 : 0 ≤ min (a / balance) 1 * 20 := mul_nonneg hfac (by norm_num)
    linarith
  have hjr := jsRound_nonneg hraw
  rw [calculateRisk_eval hfind hb]
  refine ⟨(max_eq_right (le_min hjr (by norm_num))).symm,
    le_min hjr (by norm_num), min_le_right _ _⟩

lemma runTrace_timestamps_antitone (tr : List Cmd) :
    ∀ s : GState,
      List.Sorted (· ≥ ·) (s.betHistory.map fun e => e.timestamp) →
      List.Sorted (· ≤ ·) (tr.map Cmd.time) →
      (∀ q ∈ s.betHistory.map fun e => e.timestamp, ∀ c ∈ tr, q ≤ c.time) →
      List.Sorted (· ≥ ·) (((runTrace s tr).betHistory).map fun e => e.timestamp) := by
  induction tr with
  | nil => intro s hs _ _; exact hs
  | cons c cs ih =>
    intro s hs htr hbd
    rw [runTrace_cons]
    rcases placeBet_result_cases s c.eventId c.amount c.draw c.time with
      ⟨_, hst⟩ | ⟨event, _, _, _, _, heq⟩
    · rw [hst]
      refine ih s hs ?_ ?_
      · exact (List.sorted_cons.mp (by simpa using htr)).2
      · intro q hq c' hc'
        exact hbd q hq c' (List.mem_cons_of_mem c hc')
    · rw [heq]
      have hhist : (settleBet s event c.eventId c.amount c.draw c.time).2.betHistory =
          mkEntry s event c.eventId c.amount c.draw c.time :: s.betHistory :=
        settleBet_snd_history s event c.eventId c.amount c.draw c.time
      have htr' : List.Sorted (· ≤ ·) (cs.map Cmd.time) :=
        (List.sorted_cons.mp (by simpa using htr)).2
      have hhead : ∀ b ∈ cs.map Cmd.time, c.time ≤ b :=
        (List.sorted_cons.mp (by simpa using htr)).1
      refine ih _ ?_ htr' ?_
      · rw [hhist]
        simp only [List.map_cons, mkEntry_timestamp]
        rw [List.sorted_cons]
        refine ⟨?_, hs⟩
        intro b hb
        exact hbd b hb c (List.mem_cons_self c cs)
      · rw [hhist]
        simp only [List.map_cons, mkEntry_timestamp]
        intro q hq c' hc'
        rcases List.mem_cons.mp hq with h | h
        · subst h
          exact hhead c'.time (List.mem_map_of_mem Cmd.time hc')
        · exact hbd q h c' (List.mem_cons_of_mem c hc')

/-- C5 (amended): the history is prepend-only — each accepted wager's record
is placed *before* all existing records (the source prepends with
`[historyEntry, ...prev]`), so for any session whose submission timestamps
are non-decreasing, the stored sequence of record timestamps is
monotonically *non-increasing* from first to last (newest first). -/
theorem placeBet_history_prepend_antitone :
    (∀ (s : GState) (eid : String) (a r t : ℚ),
        isSettled (placeBet s eid a r t).1 = true →
        (placeBet s eid a r t).2.betHistory.head? = settledEntry? (placeBet s eid a r t).1 ∧
        (placeBet s eid a r t).2.betHistory.tail = s.betHistory ∧
        ((placeBet s eid a r t).2.betHistory.head?.map fun e => e.timestamp) = some t) ∧
    (∀ tr : List Cmd, List.Sorted (· ≤ ·) (tr.map Cmd.time) →
        List.Sorted (· ≥ ·) (((runTrace initialState tr).betHistory).map
          fun e => e.timestamp)) := by
  constructor
  · intro s eid a r t hset
    obtain ⟨event, _, _, _, _, heq⟩ := placeBet_settled_inv hset
    rw [heq, settleBet_snd_history, settleBet_fst_entry]
    exact ⟨rfl, rfl, rfl⟩
  · intro tr htr
    refine runTrace_timestamps_antitone tr initialState ?_ htr ?_
    · simp [initialState]
    · simp [initialState]

/-- Witness for C5 (amended): a settled bet prepends its record, and the
two-bet session with non-decreasing times 0, 1 yields a stored timestamp
sequence that is non-increasing. -/
theorem placeBet_history_prepend_antitone_witness :
    isSettled (placeBet initialState coinFlipId 100 (3/10) 0).1 = true ∧
    (placeBet initialState coinFlipId 100 (3/10) 0).2.betHistory.tail =
      initialState.betHistory ∧
    List.Sorted (· ≤ ·) (twoBetTrace.map Cmd.time) ∧
    List.Sorted (· ≥ ·) (((runTrace initialState twoBetTrace).betHistory).map
      fun e => e.timestamp) := by
  have hset : isSettled (placeBet initialState coinFlipId 100 (3/10) 0).1 = true := by
    rw [placeBet_accepted (3/10) 0 findEvent_coinFlip rfl
      (by norm_num [violatesLimits, coinFlip]) (by norm_num [initialState])]
    exact settleBet_fst_isSettled _ _ _ _ _ _
  have hsort : List.Sorted (· ≤ ·) (twoBetTrace.map Cmd.time) := by
    simp [twoBetTrace, List.sorted_cons]
  exact ⟨hset, (placeBet_history_prepend_antitone.1 initialState coinFlipId 100 (3/10) 0
    hset).2.1, hsort, placeBet_history_prepend_antitone.2 twoBetTrace hsort⟩

lemma twoBet_step1 :
    placeBet initialState coinFlipId 10 (9/10) 0 =
      settleBet initialState coinFlip coinFlipId 10 (9/10) 0 :=
  placeBet_accepted (9/10) 0 findEvent_coinFlip rfl
    (by norm_num [violatesLimits, coinFlip]) (by norm_num [initialState])

lemma twoBet_s1_balance :
    (settleBet initialState coinFlip coinFlipId 10 (9/10) 0).2.balance = 990 := by
  rw [settleBet_snd_balance]
  norm_num [initialState, coinFlip]

lemma twoBet_s1_gameState :
    (settleBet initialState coinFlip coinFlipId 10 (9/10) 0).2.gameState =
      GameState.playing := by
  rw [settleBet_snd_gameState, settleBet_balanceAfter]
  norm_num [initialState, coinFlip]

lemma twoBet_step2 :
    placeBet (settleBet initialState coinFlip coinFlipId 10 (9/10) 0).2
        coinFlipId 10 (9/10) 1 =
      settleBet (settleBet initialState coinFlip coinFlipId 10 (9/10) 0).2
        coinFlip coinFlipId 10 (9/10) 1 :=
  placeBet_accepted (9/10) 1 findEvent_coinFlip twoBet_s1_gameState
    (by norm_num [violatesLimits, coinFlip]) (by rw [twoBet_s1_balance]; norm_num)

lemma twoBet_run :
    runTrace initialState twoBetTrace =
      (settleBet (settleBet initialState coinFlip coinFlipId 10 (9/10) 0).2
        coinFlip coinFlipId 10 (9/10) 1).2 := by
  simp only [runTrace, twoBetTrace, List.foldl]
  rw [twoBet_step1, twoBet_step2]

/-- Counterexample to C5 as stated: after the two-bet session with times
0 then 1, the stored history holds the later record first — the stored
timestamp sequence is `[1, 0]`, which is not monotonically non-decreasing
from first to last. -/
theorem history_append_order_cex :
    ((runTrace initialState twoBetTrace).betHistory.map fun e => e.timestamp) = [1, 0] ∧
    ¬ List.Sorted (· ≤ ·)
      ((runTrace initialState twoBetTrace).betHistory.map fun e => e.timestamp) := by
  have hmap : ((runTrace initialState twoBetTrace).betHistory.map fun e => e.timestamp) =
      [1, 0] := by
    rw [twoBet_run, settleBet_snd_history, settleBet_snd_history]
    simp [initialState, mkEntry_timestamp]
  refine ⟨hmap, ?_⟩
  rw [hmap]
  intro hsort
  have h10 := (List.sorted_cons.mp hsort).1 0 (by simp)
  norm_num at h10

lemma runTrace_inv (tr : List Cmd) :
    ∀ s : GState,
      (s.gameState = GameState.playing →
        0 < s.balance ∧ ∀ rec ∈ s.betHistory, 0 < rec.balanceAfter) →
      (∀ rec ∈ s.betHistory, 0 ≤ rec.balanceAfter) →
      (∀ rec ∈ s.betHistory.tail, 0 < rec.balanceAfter) →
      ((runTrace s tr).gameState = GameState.playing →
        0 < (runTrace s tr).balance ∧
        ∀ rec ∈ (runTrace s tr).betHistory, 0 < rec.balanceAfter) ∧
      (∀ rec ∈ (runTrace s tr).betHistory, 0 ≤ rec.balanceAfter) ∧
      (∀ rec ∈ (runTrace s tr).betHistory.tail, 0 < rec.balanceAfter) := by
  induction tr with
  | nil => intro s h1 h2 h3; exact ⟨h1, h2, h3⟩
  | cons c cs ih =>
    intro s h1 h2 h3
    rw [runTrace_cons]
    rcases placeBet_result_cases s c.eventId c.amount c.draw c.time with
      ⟨_, hst⟩ | ⟨event, hfind, hplay, hlim, hbal, heq⟩
    · rw [hst]
      exact ih s h1 h2 h3
    · rw [heq]
      obtain ⟨hbalpos, hallpos⟩ := h1 hplay
      have hnn := settle_result_nonneg c.draw (findEvent_mem hfind) hlim hbal
      have hBA : settledBalanceAfter (settleBet s event c.eventId c.amount c.draw c.time) =
          s.balance + (if c.draw < event.winChance
            then c.amount * (event.multiplier - 1) else -c.amount) :=
        settleBet_balanceAfter s event c.eventId c.amount c.draw c.time
      refine ih _ ?_ ?_ ?_
      · intro hplay'
        rw [settleBet_snd_gameState] at hplay'
        by_cases hle : settledBalanceAfter
            (settleBet s event c.eventId c.amount c.draw c.time) ≤ 0
        · rw [if_pos hle] at hplay'
          exact absurd hplay' (by simp)
        · have hpos : (0:ℚ) < s.balance + (if c.draw < event.winChance
              then c.amount * (event.multiplier - 1) else -c.amount) := by
            rw [← hBA]
            exact not_le.mp hle
          constructor
          · rw [settleBet_snd_balance]
            exact hpos
          · rw [settleBet_snd_history]
            intro rec hrec
            rcases List.mem_cons.mp hrec with h | h
            · subst h
              rw [mkEntry_balanceAfter]
              exact hpos
            · exact hallpos rec h
      · rw [settleBet_snd_history]
        intro rec hrec
        rcases List.mem_cons.mp hrec with h | h
        · subst h
          rw [mkEntry_balanceAfter]
          exact hnn
        · exact le_of_lt (hallpos rec h)
      · rw [settleBet_snd_history]
        simp only [List.tail_cons]
        exact hallpos

/-- C10 (amended): in every Ledger state reachable through `placeBet` from
the initial state, each record's `balanceAfter` is non-negative; every
record except possibly the newest (stored head) is strictly positive; and
while the game is still `playing` every record's `balanceAfter` — i.e.,
every divisor of the stake-as-fraction-of-balance computations — is
strictly positive.  (A zero divisor *is* reachable: a final wager losing
the entire balance records `balanceAfter = 0`; see the counterexample.) -/
theorem reachable_balanceAfter_nonneg :
    ∀ tr : List Cmd,
      ((runTrace initialState tr).betHistory.all
        fun rec => decide (0 ≤ rec.balanceAfter)) = true ∧
      ((runTrace initialState tr).betHistory.tail.all
        fun rec => decide (0 < rec.balanceAfter)) = true ∧
      ((runTrace initialState tr).gameState = GameState.playing →
        ((runTrace initialState tr).betHistory.all
          fun rec => decide (0 < rec.balanceAfter)) = true) := by
  intro tr
  have h := runTrace_inv tr initialState
    (fun _ => ⟨by norm_num [initialState], by simp [initialState]⟩)
    (by simp [initialState]) (by simp [initialState])
  refine ⟨?_, ?_, ?_⟩
  · rw [List.all_eq_true]
    intro rec hrec
    exact decide_eq_true (h.2.1 rec hrec)
  · rw [List.all_eq_true]
    intro rec hrec
    exact decide_eq_true (h.2.2 rec hrec)
  · intro hplay
    rw [List.all_eq_true]
    intro rec hrec
    exact decide_eq_true ((h.1 hplay).2 rec hrec)

lemma twoBet_run_gameState :
    (runTrace initialState twoBetTrace).gameState = GameState.playing := by
  rw [twoBet_run, settleBet_snd_gameState, settleBet_balanceAfter, twoBet_s1_balance,
    twoBet_s1_gameState]
  norm_num [coinFlip]

/-- Witness for C10 (amended), at the two-bet session: all recorded
`balanceAfter` values are non-negative, and — the state still being
`playing` — all are strictly positive. -/
theorem reachable_balanceAfter_nonneg_witness :
    ((runTrace initialState twoBetTrace).betHistory.all
      fun rec => decide (0 ≤ rec.balanceAfter)) = true ∧
    ((runTrace initialState twoBetTrace).betHistory.all
      fun rec => decide (0 < rec.balanceAfter)) = true :=
  ⟨(reachable_balanceAfter_nonneg twoBetTrace).1,
   (reachable_balanceAfter_nonneg twoBetTrace).2.2 twoBet_run_gameState⟩

lemma allIn_lim10 : violatesLimits coinFlip 10 = false := by
  norm_num [violatesLimits, coinFlip]

lemma aiStep1 : (placeBet initialState coinFlipId 10 (9/10) 0).2 = aiS1 := by
  rw [twoBet_step1]
  simp only [settleBet, mkEntry, aiS1, aiRec, initialState, calculateRiskGame]
  norm_num [coinFlip]

lemma aiStep2 : (placeBet aiS1 coinFlipId 10 (9/10) 1).2 = aiS2 := by
  rw [placeBet_accepted (9/10) 1 findEvent_coinFlip rfl allIn_lim10
    (by norm_num [aiS1])]
  simp only [settleBet, mkEntry, aiS1, aiS2, aiRec, calculateRiskGame]
  norm_num [coinFlip]

lemma aiStep3 : (placeBet aiS2 coinFlipId 10 (9/10) 2).2 = aiS3 := by
  rw [placeBet_accepted (9/10) 2 findEvent_coinFlip rfl allIn_lim10
    (by norm_num [aiS2])]
  simp only [settleBet, mkEntry, aiS2, aiS3, aiRec, calculateRiskGame]
  norm_num [coinFlip]

lemma aiStep4 : (placeBet aiS3 coinFlipId 10 (9/10) 3).2 = aiS4 := by
  rw [placeBet_accepted (9/10) 3 findEvent_coinFlip rfl allIn_lim10
    (by norm_num [aiS3])]
  simp only [settleBet, mkEntry, aiS3, aiS4, aiRec, calculateRiskGame]
  norm_num [coinFlip]

lemma aiStep5 : (placeBet aiS4 coinFlipId 960 (9/10) 4).2 = aiS5 := by
  rw [placeBet_accepted (9/10) 4 findEvent_coinFlip rfl
    (by norm_num [violatesLimits, coinFlip]) (by norm_num [aiS4])]
  simp only [settleBet, mkEntry, aiS4, aiS5, aiRec, calculateRiskGame]
  norm_num [coinFlip]

lemma aiRun : runTrace initialState allInTrace = aiS5 := by
  show (placeBet (placeBet (placeBet (placeBet (placeBet initialState
    coinFlipId 10 (9/10) 0).2 coinFlipId 10 (9/10) 1).2 coinFlipId 10 (9/10) 2).2
    coinFlipId 10 (9/10) 3).2 coinFlipId 960 (9/10) 4).2 = aiS5
  rw [aiStep1, aiStep2, aiStep3, aiStep4, aiStep5]

/-- Counterexample to C10 as stated: the five-bet all-in session is
reachable through `placeBet` from the initial state and leaves a history of
length 5 (enough for every analytics consumer) whose newest record has
`balanceAfter = 0` — a zero divisor for the stake-as-fraction-of-balance
computations — with the game over. -/
theorem reachable_zero_balanceAfter_cex :
    (runTrace initialState allInTrace).betHistory.length = 5 ∧
    ((runTrace initialState allInTrace).betHistory.map fun rec => rec.balanceAfter) =
      [0, 960, 970, 980, 990] ∧
    (runTrace initialState allInTrace).gameState = GameState.lost := by
  rw [aiRun]
  refine ⟨rfl, ?_, rfl⟩
  simp [aiS5, aiRec]

/-- Witness for C6 at the Coin Flip event, balance 1000, amount 100. -/
theorem calculateRisk_bounds_witness :
    betEvents.find? (fun e => e.id == coinFlipId) = some coinFlip ∧
    (0:ℚ) < 1000 ∧ (0:ℚ) ≤ 100 ∧
    0 < coinFlip.winChance ∧ coinFlip.winChance ≤ 1 ∧
    0 ≤ calculateRisk betEvents 1000 coinFlipId 100 ∧
    calculateRisk betEvents 1000 coinFlipId 100 ≤ 100 := by
  have h := calculateRisk_bounds betEvents 1000 100 coinFlipId coinFlip findEvent_coinFlip
    (by norm_num) (by norm_num) (by norm_num [coinFlip]) (by norm_num [coinFlip])
  exact ⟨findEvent_coinFlip, by norm_num, by norm_num, by norm_num [coinFlip],
    by norm_num [coinFlip], h.2.1, h.2.2⟩

lemma c7_chaseLossCount : chaseLossCount (sortedBetsView c7History) = 0 := by
  norm_num [sortedBetsView, c7History, chaseLossCount]

lemma c7_specQualifying : specChaseQualifying c7History.reverse = 4 := by
  norm_num [c7History, specChaseQualifying]

/-- C7: evaluation of the loss-chasing rule at the failing input.  On the
history whose chronological stakes 100, 200, 400, 800, 1600 each more than
double after a loss, the code's rule (whose `a`-versus-`a` sort comparator
leaves the newest-first array unsorted) counts 0 qualifying pairs and emits
no warning, while the chronological transition quotient the specification
describes is 4/4 = 1, clearing the 0.2 warning and 0.4 high-severity
thresholds. -/
theorem lossChase_sortBug_eval :
    chaseLossFrac c7History = 0 ∧
    lossChaseWarning c7History = none ∧
    specChronoChaseFrac c7History = 1 ∧
    (2:ℚ)/10 < 1 ∧ (4:ℚ)/10 < 1 := by
  have hfrac : chaseLossFrac c7History = 0 := by
    rw [chaseLossFrac, c7_chaseLossCount]
    norm_num
  refine ⟨hfrac, ?_, ?_, by norm_num, by norm_num⟩
  · rw [lossChaseWarning]
    rw [if_neg (by norm_num [c7History])]
    rw [hfrac]
    norm_num
  · rw [specChronoChaseFrac, c7_specQualifying]
    norm_num [c7History]

lemma projStep_pb_nonneg (m : ProjMetrics) (rand : ℕ → ℚ) (numBets i : ℕ)
    (st : LoopState) : 0 ≤ (projStep m rand numBets i st).pb := by
  simp only [projStep]
  exact le_max_left 0 _

lemma projRun_pb_nonneg (m : ProjMetrics) (rand : ℕ → ℚ) (numBets : ℕ) :
    ∀ (l : List ℕ) (st : LoopState), ∀ x ∈ projRun m rand numBets l st, 0 ≤ x.pb := by
  intro l
  induction l with
  | nil => intro st x hx; simp [projRun] at hx
  | cons i rest ih =>
    intro st x hx
    rw [projRun] at hx
    rcases List.mem_cons.mp hx with h | h
    · subst h
      exact projStep_pb_nonneg m rand numBets i st
    · exact ih _ x h

lemma sum_sq_nonneg (l : List ℚ) (c : ℚ) :
    0 ≤ (l.map fun x => (x - c)^2).sum := by
  refine List.sum_nonneg ?_
  intro x hx
  obtain ⟨y, _, rfl⟩ := List.mem_map.mp hx
  exact sq_nonneg _

lemma avg_nonneg_of (l : List ℚ) (h : ∀ x ∈ l, 0 ≤ x) :
    0 ≤ l.sum / (l.length : ℚ) :=
  div_nonneg (List.sum_nonneg h) (Nat.cast_nonneg _)

lemma calcMetrics_betSizeStdDev_nonneg (sqrtFn : ℚ → ℚ)
    (hs : ∀ x, 0 ≤ x → 0 ≤ sqrtFn x) (betHistory : List BetRecord) :
    0 ≤ (calculateMetrics sqrtFn betHistory).betSizeStdDev := by
  simp only [calculateMetrics]
  exact hs _ (div_nonneg (sum_sq_nonneg _ _) (Nat.cast_nonneg _))

lemma volScore_nonneg {f : ℚ → ℚ} (hs : ∀ x, 0 ≤ x → 0 ≤ f x) (l : List ℚ)
    (hl : ∀ x ∈ l, 0 ≤ x) (c cap k : ℚ) (hcap : 0 ≤ cap) (hk : 0 ≤ k) :
    0 ≤ min cap (k * (f ((l.map fun b => (b - c)^2).sum / (l.length : ℚ)) /
      (l.sum / (l.length : ℚ)))) :=
  le_min hcap (mul_nonneg hk (div_nonneg
    (hs _ (div_nonneg (sum_sq_nonneg l c) (Nat.cast_nonneg _)))
    (avg_nonneg_of l hl)))

lemma varScore_nonneg (l : List ℚ) (hl : ∀ x ∈ l, 0 ≤ x) (x cap k : ℚ)
    (hcap : 0 ≤ cap) (hk : 0 ≤ k) :
    0 ≤ min cap (k * (|x| / (l.sum / (l.length : ℚ)))) :=
  le_min hcap (mul_nonneg hk (div_nonneg (abs_nonneg x) (avg_nonneg_of l hl)))

lemma projStep_pb_zero (m : ProjMetrics) (rand : ℕ → ℚ) (numBets i : ℕ)
    (st : LoopState) (h : st.pb = 0) (hr : 99/100 ≤ rand (4*i+3)) :
    (projStep m rand numBets i st).pb = 0 := by
  have hwr : ¬ (rand (4*i+3) < max (1/100 : ℚ) (min (95/100)
      (st.wr + m.winRateTrend / (numBets : ℚ) +
        randomVariation (rand (4*i)) * (5/100)))) :=
    not_lt.mpr (le_trans (max_le (by norm_num) (min_le_left _ _))
      (le_trans (by norm_num) hr))
  simp only [projStep, decide_eq_true_eq, if_neg hwr, h]
  have hbs := le_max_left (10:ℚ) (st.bs * (1 + m.betSizeTrend / (numBets : ℚ) +
    randomVariation (rand (4*i+1)) * (1/10)))
  exact max_eq_left (by linarith)

lemma projRun_pb_zero (m : ProjMetrics) (rand : ℕ → ℚ) (numBets : ℕ)
    (hr : ∀ k, 99/100 ≤ rand k) :
    ∀ (l : List ℕ) (st : LoopState), st.pb = 0 →
      ∀ x ∈ projRun m rand numBets l st, x.pb = 0 := by
  intro l
  induction l with
  | nil => intro st _ x hx; simp [projRun] at hx
  | cons i rest ih =>
    intro st h x hx
    rw [projRun] at hx
    rcases List.mem_cons.mp hx with hh | hh
    · subst hh
      exact projStep_pb_zero m rand numBets i st h (hr _)
    · exact ih _ (projStep_pb_zero m rand numBets i st h (hr _)) x hh

lemma getLastD_zero : ∀ (l : List ℚ) (d : ℚ), (∀ x ∈ l, x = 0) → d = 0 →
    l.getLastD d = 0 := by
  intro l
  induction l with
  | nil => intro d _ hd; exact hd
  | cons a t ih =>
    intro d h _
    rw [List.getLastD_cons]
    exact ih a (fun x hx => h x (List.mem_cons_of_mem a hx))
      (h a (List.mem_cons_self a t))

lemma genProj_finalBalance_zero (f : ℚ → ℚ) (rand : ℕ → ℚ)
    (hr : ∀ k, 99/100 ≤ rand k) (numBets : ℕ) (hist : List BetRecord) :
    (generateProjections f rand numBets 0 hist).finalBalance = 0 := by
  simp only [generateProjections]
  apply getLastD_zero
  · intro x hx
    obtain ⟨st, hst, rfl⟩ := List.mem_map.mp hx
    exact projRun_pb_zero _ rand numBets hr _ _ rfl st hst
  · rfl

lemma finalScoreJs_nan : finalBalanceScoreJs (JsNum.fin 0) (JsNum.fin 0) = JsNum.nan := by
  simp [finalBalanceScoreJs, jsDiv, jsSub, jsNeg, jsAdd, jsMul, jsMin, jsMax]

lemma betSizing_nan : betSizingScoreJs (fun _ => 0) aiS5.betHistory = JsNum.nan := by
  norm_num [betSizingScoreJs, betSizeStdDevJs, betSizeSharesJs, jsDiv, jsAdd,
    jsSub, jsNeg, jsMul, jsSqrt, jsMin, aiS5, aiRec]

/-- Counterexample to C8 as stated: the projection does run on a reachable
balance-0 state with a five-bet history (the all-in session; the analytics
page renders it with no game-state gate), and there the component formulas
evaluated in JavaScript number semantics break the caps: with draws that
lose every simulated step the projected final balance stays 0, so the
final-balance component computes `0 / 0 = NaN`; the zero-`balanceAfter`
record likewise makes the bet-sizing component NaN through an infinite
stake share.  NaN satisfies no cap bound (`0 ≤ c` and `c ≤ cap` are both
false), so the components are neither non-negative nor within 30/10, and
they cannot sum to the reported score. -/
theorem projection_breakdown_caps_cex :
    (runTrace initialState allInTrace).balance = 0 ∧
    (runTrace initialState allInTrace).betHistory.length = 5 ∧
    (generateProjections (fun _ => 0) (fun _ => 99/100) 10
      (runTrace initialState allInTrace).balance
      (runTrace initialState allInTrace).betHistory).finalBalance = 0 ∧
    finalBalanceScoreJs
      (JsNum.fin ((generateProjections (fun _ => 0) (fun _ => 99/100) 10
        (runTrace initialState allInTrace).balance
        (runTrace initialState allInTrace).betHistory).finalBalance))
      (JsNum.fin (runTrace initialState allInTrace).balance) = JsNum.nan ∧
    betSizingScoreJs (fun _ => 0) (runTrace initialState allInTrace).betHistory =
      JsNum.nan ∧
    jsLe (JsNum.fin 0) JsNum.nan = false ∧
    jsLe JsNum.nan (JsNum.fin 30) = false ∧
    jsLe JsNum.nan (JsNum.fin 10) = false := by
  have hbal : (runTrace initialState allInTrace).balance = 0 := by
    rw [aiRun]
    rfl
  have hfin : (generateProjections (fun _ => 0) (fun _ => 99/100) 10
      (runTrace initialState allInTrace).balance
      (runTrace initialState allInTrace).betHistory).finalBalance = 0 := by
    rw [hbal]
    exact genProj_finalBalance_zero _ _ (fun k => le_refl _) 10 _
  refine ⟨hbal, ?_, hfin, ?_, ?_, rfl, rfl, rfl⟩
  · rw [aiRun]
    rfl
  · rw [hfin, hbal]
    exact finalScoreJs_nan
  · rw [aiRun]
    exact betSizing_nan

/-- C8 (amended): for every projection run over a history of length at
least 5 in which no division of the pipeline has a zero denominator — the
current balance and horizon are positive and every record's `betAmount`,
`balanceAfter`, and `riskPercentage` are positive, which is where the
exact-rational model and the JavaScript float semantics agree — each of
the five `riskBreakdown` components is non-negative, within its documented
cap (30/25/20/15/10), and the five sum exactly to `bankruptcyRiskScore`
(whatever the draws and the square-root primitive, assumed non-negative on
non-negative inputs); and `calculateBankruptcyRiskScore` has the same
property for non-negative volatility, Value-at-Risk, average balance, and
bet-sizing deviation.  On the reachable balance-0 run the components are
instead NaN (see the counterexample). -/
theorem projection_breakdown_caps :
    (∀ (sqrtFn : ℚ → ℚ) (rand : ℕ → ℚ) (numBets : ℕ) (balance : ℚ)
        (betHistory : List BetRecord),
        (∀ x, 0 ≤ x → 0 ≤ sqrtFn x) → 5 ≤ betHistory.length → 0 < numBets →
        0 < balance →
        (betHistory.all fun rec => decide (0 < rec.betAmount) &&
          decide (0 < rec.balanceAfter) && decide (0 < rec.riskPercentage)) = true →
        breakdownOk (generateProjections sqrtFn rand numBets balance betHistory)) ∧
    (∀ finalBalance minBalance initialBalance balanceVolatility
        valueAtRisk avgBalance betSizeStdDev : ℚ,
        0 ≤ balanceVolatility → 0 ≤ valueAtRisk → 0 ≤ avgBalance → 0 ≤ betSizeStdDev →
        brsOk (calculateBankruptcyRiskScore finalBalance minBalance initialBalance
          balanceVolatility valueAtRisk avgBalance betSizeStdDev)) := by
  constructor
  · intro sqrtFn rand numBets balance betHistory hs _hlen _hnum hbal _hrecs
    have hhist : ∀ x ∈ balance :: (projRun (calculateMetrics sqrtFn betHistory) rand
        numBets (List.range numBets)
        { pb := balance, wr := (calculateMetrics sqrtFn betHistory).winRate,
          bs := (calculateMetrics sqrtFn betHistory).avgBetSize,
          rl := (calculateMetrics sqrtFn betHistory).avgRiskLevel,
          won := false }).map (fun st => st.pb), 0 ≤ x := by
      intro x hx
      rcases List.mem_cons.mp hx with h | h
      · subst h; exact hbal.le
      · obtain ⟨st, hst, rfl⟩ := List.mem_map.mp h
        exact projRun_pb_nonneg _ _ _ _ _ st hst
    have hbsd := calcMetrics_betSizeStdDev_nonneg sqrtFn hs betHistory
    simp only [generateProjections, breakdownOk]
    refine ⟨le_max_left 0 _, max_le (by norm_num) (min_le_left _ _),
      le_max_left 0 _, max_le (by norm_num) (min_le_left _ _),
      volScore_nonneg hs _ hhist _ _ _ (by norm_num) (by norm_num),
      min_le_left _ _,
      varScore_nonneg _ hhist _ _ _ (by norm_num) (by norm_num),
      min_le_left _ _,
      le_min (by norm_num) (mul_nonneg (mul_nonneg (by norm_num) hbsd) (by norm_num)),
      min_le_left _ _, trivial⟩
  · intro finalBalance minBalance initialBalance balanceVolatility
      valueAtRisk avgBalance betSizeStdDev hv hva havg hbsd
    have hvf : (0:ℚ) ≤ (if 0 < avgBalance then valueAtRisk / avgBalance else 0) := by
      by_cases h : 0 < avgBalance
      · rw [if_pos h]; exact div_nonneg hva h.le
      · rw [if_neg h]
    simp only [calculateBankruptcyRiskScore, brsOk]
    exact ⟨le_max_left 0 _, max_le (by norm_num) (min_le_left _ _),
      le_max_left 0 _, max_le (by norm_num) (min_le_left _ _),
      le_min (by norm_num) (mul_nonneg (by norm_num) hv), min_le_left _ _,
      le_min (by norm_num) (mul_nonneg (by norm_num) hvf), min_le_left _ _,
      le_min (by norm_num) (mul_nonneg (mul_nonneg (by norm_num) hbsd) (by norm_num)),
      min_le_left _ _, trivial⟩

/-- Witness for C8 (amended): a concrete projection over the five-bet
history — all records with positive stake, balance, and risk — with a
constant draw stream, positive balance and horizon, and the zero
square-root stub; plus concrete inputs for the standalone score function. -/
theorem projection_breakdown_caps_witness :
    5 ≤ c7History.length ∧ 0 < (10:ℕ) ∧ (0:ℚ) < 1000 ∧
    (c7History.all fun rec => decide (0 < rec.betAmount) &&
      decide (0 < rec.balanceAfter) && decide (0 < rec.riskPercentage)) = true ∧
    breakdownOk (generateProjections (fun _ => 0) (fun _ => 1/2) 10 1000 c7History) ∧
    brsOk (calculateBankruptcyRiskScore 500 200 1000 (1/2) 50 600 (1/10)) :=
  ⟨by norm_num [c7History], by norm_num, by norm_num,
   by norm_num [c7History],
   projection_breakdown_caps.1 (fun _ => 0) (fun _ => 1/2) 10 1000 c7History
     (fun x _ => le_refl 0) (by norm_num [c7History]) (by norm_num) (by norm_num)
     (by norm_num [c7History]),
   projection_breakdown_caps.2 500 200 1000 (1/2) 50 600 (1/10)
     (by norm_num) (by norm_num) (by norm_num) (by norm_num)⟩
